import Mathlib

set_option maxRecDepth 3000

/-!
Shallow embedding of the stratisd BDA (Block Device Area) metadata module
(`src/engine/strat_engine/backstore/metadata.rs`).

Bytes are modelled as `Nat` values (kept `< 256` by construction), a block
device as a total function `Nat → Nat` from byte offset to byte value
(`Disk`), and fallible operations return `Except StratisError`.  Machine
integers (`u32`, `u64`, `u128`) are `Nat` with explicit `% 2 ^ w` /
byte-decomposition where overflow matters.  Stateful Rust methods become
explicit state passing: a method that mutates the device and/or `self`
returns the new `Disk` and/or the new structure value.
-/

/-- Errors, following `StratisError::Engine(ErrorEnum::Invalid, msg)`.
Formatted numeric values inside source messages are elided: the message
strings here are fixed prefixes of the source's format strings. -/
inductive StratisError where
  | Invalid (msg : String)
deriving DecidableEq, Repr

deriving instance DecidableEq for Except

/-- A block device: a total byte stream, offset ↦ byte value.
Models the `Seek + Read + SyncAll` stream the Rust code works against;
reads and writes in this model always succeed (`sync_all` is a no-op). -/
def Disk := Nat → Nat

/-- The all-zero stream. -/
def zeroDisk : Disk := fun _ => 0

/-- `write_all` at absolute offset `off`: bytes `off .. off + data.length`
take the values of `data`, everything else is unchanged. -/
def writeBytes (d : Disk) (off : Nat) (data : List Nat) : Disk :=
  fun i => if off ≤ i ∧ i < off + data.length then data.getD (i - off) 0 else d i

/-- `read_exact` of `n` bytes at absolute offset `off`. -/
def readBytes (d : Disk) (off n : Nat) : List Nat :=
  (List.range n).map (fun i => d (off + i))

/-- `buf[off .. off+n]` slicing of a byte buffer. -/
def sliceBuf (l : List Nat) (off n : Nat) : List Nat :=
  (l.drop off).take n

/-- `LittleEndian::write_u32`: the four little-endian bytes of `n`. -/
def u32ToLe (n : Nat) : List Nat :=
  [n % 256, n / 256 % 256, n / 65536 % 256, n / 16777216 % 256]

/-- `LittleEndian::write_u64`: the eight little-endian bytes of `n`. -/
def u64ToLe (n : Nat) : List Nat :=
  [n % 256, n / 256 % 256, n / 65536 % 256, n / 16777216 % 256,
   n / 4294967296 % 256, n / 1099511627776 % 256,
   n / 281474976710656 % 256, n / 72057594037927936 % 256]

/-- `LittleEndian::read_u32` on a 4-byte buffer. -/
def leToU32 (l : List Nat) : Nat :=
  l.getD 0 0 + 256 * l.getD 1 0 + 65536 * l.getD 2 0 + 16777216 * l.getD 3 0

/-- `LittleEndian::read_u64` on an 8-byte buffer. -/
def leToU64 (l : List Nat) : Nat :=
  l.getD 0 0 + 256 * l.getD 1 0 + 65536 * l.getD 2 0 + 16777216 * l.getD 3 0
    + 4294967296 * l.getD 4 0 + 1099511627776 * l.getD 5 0
    + 281474976710656 * l.getD 6 0 + 72057594037927936 * l.getD 7 0

/-- One shift-and-conditionally-xor step of reflected CRC-32C
(polynomial `0x1EDC6F41`, reflected form `0x82F63B78`), as computed by
`crc::crc32::checksum_castagnoli`; `c / 2` is the source's `crc >> 1`. -/
def crc32cStep (c : Nat) : Nat :=
  if c % 2 = 1 then (c / 2) ^^^ 0x82F63B78 else c / 2

/-- Absorb one byte into a running CRC-32C state: xor the byte in, then
run eight shift steps. -/
def crc32cByte (c b : Nat) : Nat :=
  crc32cStep (crc32cStep (crc32cStep (crc32cStep (crc32cStep (crc32cStep
    (crc32cStep (crc32cStep (c ^^^ b))))))))

/-- `crc32::checksum_castagnoli`: CRC-32C of a byte list, with the usual
initial and final complement. -/
def crc32c (data : List Nat) : Nat :=
  (data.foldl crc32cByte 0xFFFFFFFF) ^^^ 0xFFFFFFFF

/-- Lower-case hex digit character code for a nibble, as produced by
`Uuid::simple().to_string()`. -/
def hexChar (d : Nat) : Nat :=
  if d < 10 then 48 + d else 87 + d

/-- The 32 ASCII characters of a UUID (a 128-bit value) in simple form:
most significant nibble first, lower-case hex, no separators. -/
def uuidToHexBytes (u : Nat) : List Nat :=
  (List.range 32).map (fun i => hexChar (u / 16 ^ (31 - i) % 16))

/-- Value of one hex digit character (either case), `none` if not hex. -/
def hexVal (c : Nat) : Option Nat :=
  if 48 ≤ c ∧ c ≤ 57 then some (c - 48)
  else if 97 ≤ c ∧ c ≤ 102 then some (c - 87)
  else if 65 ≤ c ∧ c ≤ 70 then some (c - 55)
  else none

/-- `Uuid::parse_str` on a 32-byte slice: every character must be a hex
digit (a 32-character string can only be the simple UUID form). -/
def parseUuid (bs : List Nat) : Except StratisError Nat :=
  if bs.length = 32 then
    bs.foldlM
      (fun acc c =>
        match hexVal c with
        | some v => .ok (acc * 16 + v)
        | none => .error (.Invalid "invalid UUID"))
      0
  else .error (.Invalid "invalid UUID")

/-- `STRAT_MAGIC`: the 16 magic bytes `b"!Stra0tis\x86\xff\x02^\x41rh"`. -/
def STRAT_MAGIC : List Nat :=
  [0x21, 0x53, 0x74, 0x72, 0x61, 0x30, 0x74, 0x69,
   0x73, 0x86, 0xff, 0x02, 0x5e, 0x41, 0x72, 0x68]

/-- `MDA_RESERVED_SECTORS = 3 MiB / 512 = 6144` sectors. -/
def MDA_RESERVED_SECTORS : Nat := 6144

/-- `MIN_MDA_SECTORS`. -/
def MIN_MDA_SECTORS : Nat := 2032

/-- `mda::validate_mda_size`: a multiple of `NUM_MDA_REGIONS = 4`
and at least `MIN_MDA_SECTORS = 2032` sectors. -/
def validate_mda_size (size : Nat) : Except StratisError Unit :=
  if size % 4 ≠ 0 then
    .error (.Invalid "MDA size is not divisible by number of copies required")
  else if size < MIN_MDA_SECTORS then
    .error (.Invalid "MDA size is less than minimum")
  else .ok ()

/-- `StaticHeader`.  `Sectors` newtypes are flattened to `Nat` (sector
counts), UUIDs are 128-bit values, timestamps are Unix seconds. -/
structure StaticHeader where
  blkdev_size : Nat
  pool_uuid : Nat
  dev_uuid : Nat
  mda_size : Nat
  reserved_size : Nat
  flags : Nat
  initialization_time : Nat
deriving DecidableEq, Repr

/-- `StaticHeader::new`. -/
def StaticHeader.new (pool_uuid dev_uuid mda_size blkdev_size
    initialization_time : Nat) : StaticHeader :=
  { blkdev_size, pool_uuid, dev_uuid, mda_size,
    reserved_size := MDA_RESERVED_SECTORS, flags := 0, initialization_time }

/-- The 508 bytes `buf[4..512]` produced by `sigblock_to_buf`: the source
zeroes a 512-byte buffer and writes magic at `[4..20]`, `blkdev_size` at
`[20..28]`, the version byte at `28`, the two UUIDs at `[32..64]` and
`[64..96]`, `mda_size`, `reserved_size` and `initialization_time` at
`[96..104]`, `[104..112]` and `[120..128]`; bytes `29..32`, `112..120`
(the `flags` field, never written) and `128..512` remain zero. -/
def sigblockBody (h : StaticHeader) : List Nat :=
  STRAT_MAGIC ++ u64ToLe h.blkdev_size ++ [1] ++ [0, 0, 0]
    ++ uuidToHexBytes h.pool_uuid ++ uuidToHexBytes h.dev_uuid
    ++ u64ToLe h.mda_size ++ u64ToLe h.reserved_size
    ++ List.replicate 8 0 ++ u64ToLe h.initialization_time
    ++ List.replicate 384 0

/-- `StaticHeader::sigblock_to_buf`: CRC-32C of `buf[4..512]` is written
little-endian at `buf[0..4]`. -/
def sigblock_to_buf (h : StaticHeader) : List Nat :=
  u32ToLe (crc32c (sigblockBody h)) ++ sigblockBody h

/-- `StaticHeader::sigblock_from_buf`. -/
def sigblock_from_buf (buf : List Nat) :
    Except StratisError (Option StaticHeader) :=
  if sliceBuf buf 4 16 ≠ STRAT_MAGIC then .ok none
  else if crc32c (buf.drop 4) ≠ leToU32 (buf.take 4) then
    .error (.Invalid "header CRC invalid")
  else if buf.getD 28 0 ≠ 1 then
    .error (.Invalid "Unknown sigblock version")
  else
    match parseUuid (sliceBuf buf 32 32), parseUuid (sliceBuf buf 64 32) with
    | .ok pool_uuid, .ok dev_uuid =>
      let mda_size := leToU64 (sliceBuf buf 96 8)
      match validate_mda_size mda_size with
      | .error e => .error e
      | .ok _ =>
        .ok (some
          { blkdev_size := leToU64 (sliceBuf buf 20 8), pool_uuid, dev_uuid,
            mda_size, reserved_size := leToU64 (sliceBuf buf 104 8),
            flags := 0,
            initialization_time := leToU64 (sliceBuf buf 120 8) })
    | .error e, _ => .error e
    | .ok _, .error e => .error e

/-- `MetadataLocation`. -/
inductive MetadataLocation where
  | Both
  | First
  | Second
deriving DecidableEq, Repr

/-- The 8-sector block written by `BDA::write`'s `write_region`: one zero
sector, the 512-byte sigblock buffer, six zero sectors. -/
def bdaRegionBytes (buf : List Nat) : List Nat :=
  List.replicate 512 0 ++ buf ++ List.replicate 3072 0

/-- `BDA::write`: `First`/`Both` writes the 8-sector region at offset 0,
`Second`/`Both` writes it at offset 4096 (sector 8); `Both` does both. -/
def bdaWrite (d : Disk) (buf : List Nat) (which : MetadataLocation) : Disk :=
  match which with
  | .First => writeBytes d 0 (bdaRegionBytes buf)
  | .Second => writeBytes d 4096 (bdaRegionBytes buf)
  | .Both => writeBytes (writeBytes d 0 (bdaRegionBytes buf)) 4096 (bdaRegionBytes buf)

/-- `BDA::read`: sector 1 (offset 512) and sector 9 (offset 4608),
read independently. -/
def bdaRead (d : Disk) : List Nat × List Nat :=
  (readBytes d 512 512, readBytes d 4608 512)

/-- `StaticHeader::setup`: read both sigblock sectors, decode each, and
resolve.  Returns the result together with the (possibly repaired) disk. -/
def StaticHeader.setup (d : Disk) :
    Except StratisError (Option StaticHeader) × Disk :=
  let b1 := (bdaRead d).1
  let b2 := (bdaRead d).2
  match sigblock_from_buf b1, sigblock_from_buf b2 with
  | .ok (some l1), .ok (some l2) =>
    if l1 = l2 then (.ok (some l1), d)
    else if l2.initialization_time < l1.initialization_time then
      (.ok (some l1), bdaWrite d b1 .Second)
    else
      (.ok (some l2), bdaWrite d b2 .First)
  | .ok none, .ok none => (.ok none, d)
  | .ok (some l1), .ok none => (.ok (some l1), bdaWrite d b1 .Second)
  | .ok none, .ok (some l2) => (.ok (some l2), bdaWrite d b2 .First)
  | .ok (some l1), .error _ => (.ok (some l1), bdaWrite d b1 .Second)
  | .ok none, .error e2 => (.error e2, d)
  | .error _, .ok (some l2) => (.ok (some l2), bdaWrite d b2 .First)
  | .error e1, .ok none => (.error e1, d)
  | .error _, .error _ =>
    (.error (.Invalid "Appeared to be a Stratis device, but no valid sigblock found"), d)

/-- `StaticHeader::device_identifiers` (return value; the disk may have
been repaired by `setup` as a side effect, which the source keeps too). -/
def device_identifiers (d : Disk) : Except StratisError (Option (Nat × Nat)) :=
  match (StaticHeader.setup d).1 with
  | .ok (some sh) => .ok (some (sh.pool_uuid, sh.dev_uuid))
  | .ok none => .ok none
  | .error e => .error e

/-- A `DateTime<Utc>` timestamp: seconds and sub-second nanoseconds.
`DateTime` ordering is lexicographic on `(secs, nsecs)`. -/
structure Timestamp where
  secs : Nat
  nsecs : Nat
deriving DecidableEq, Repr

/-- Strict `<` on timestamps (Boolean, lexicographic). -/
def tsLtb (a b : Timestamp) : Bool :=
  a.secs < b.secs || (a.secs = b.secs && a.nsecs < b.nsecs)

/-- `≤` on timestamps (Boolean, lexicographic). -/
def tsLeb (a b : Timestamp) : Bool :=
  a.secs < b.secs || (a.secs = b.secs && a.nsecs ≤ b.nsecs)

/-- `self.last_update_time() >= Some(time)` on `Option<&DateTime<Utc>>`:
`None` is smaller than any `Some`. -/
def newerGe (lut : Option Timestamp) (t : Timestamp) : Bool :=
  match lut with
  | none => false
  | some l => tsLeb t l

/-- `mda::MDAHeader`. -/
structure MDAHeader where
  last_updated : Timestamp
  used : Nat
  data_crc : Nat
deriving DecidableEq, Repr

/-- `MDAHeader::default()`: zero timestamp, zero length, zero CRC. -/
def MDAHeader.default : MDAHeader :=
  { last_updated := ⟨0, 0⟩, used := 0, data_crc := 0 }

/-- `MDAHeader::to_buf` (32 bytes): CRC over `[4..32]` at `[0..4]`,
`data_crc` at `[4..8]`, `used` at `[8..16]`, timestamp seconds at
`[16..24]`, nanoseconds at `[24..28]`, the two version bytes `1` at
`28` and `29`, zero at `30..32`. -/
def MDAHeader.to_buf (h : MDAHeader) : List Nat :=
  let body := u32ToLe h.data_crc ++ u64ToLe h.used
    ++ u64ToLe h.last_updated.secs ++ u32ToLe h.last_updated.nsecs
    ++ [1, 1, 0, 0]
  u32ToLe (crc32c body) ++ body

/-- `mda::check_mda_region_size`: `MDA_REGION_HDR_SIZE (= 32) + used`
must not exceed the available region size (both in bytes). -/
def check_mda_region_size (used available : Nat) : Except StratisError Unit :=
  if 32 + used > available then
    .error (.Invalid "metadata length exceeds region available")
  else .ok ()

/-- `MDAHeader::from_buf` on a 32-byte region-header buffer.
`region_size` is in bytes. -/
def MDAHeader.from_buf (buf : List Nat) (region_size : Nat) :
    Except StratisError (Option MDAHeader) :=
  if leToU32 (sliceBuf buf 0 4) ≠ crc32c (buf.drop 4) then
    .error (.Invalid "MDA region header CRC")
  else if buf.getD 28 0 ≠ 1 then
    .error (.Invalid "Unknown region header version")
  else if buf.getD 29 0 ≠ 1 then
    .error (.Invalid "Unknown metadata version")
  else
    match leToU64 (sliceBuf buf 16 8) with
    | 0 => .ok none
    | secs =>
      let used := leToU64 (sliceBuf buf 8 8)
      match check_mda_region_size used region_size with
      | .error e => .error e
      | .ok _ =>
        .ok (some
          { last_updated := ⟨secs, leToU32 (sliceBuf buf 24 4)⟩, used,
            data_crc := leToU32 (sliceBuf buf 4 4) })

/-- `mda::MDARegions`: `region_size` in sectors, and the two in-memory
logical-slot headers `mdas[0]`, `mdas[1]` (regions 2 and 3 are copies). -/
structure MDARegions where
  region_size : Nat
  mda0 : Option MDAHeader
  mda1 : Option MDAHeader
deriving DecidableEq, Repr

/-- `MDARegions::mda_offset`: byte offset of region `index`. -/
def mda_offset (header_size index per_region_size : Nat) : Nat :=
  header_size + per_region_size * index

/-- `MDARegions::initialize` (renamed: `initialize` is a Lean keyword):
write the default (empty, CRC-correct) region header to each of the four
regions; the in-memory state has `region_size = size / 4` and empty slots. -/
def initializeMDA (header_size size : Nat) (d : Disk) : MDARegions × Disk :=
  let hdr_buf := MDAHeader.default.to_buf
  let region_size := size / 4
  let per := region_size * 512
  let d := writeBytes d (mda_offset header_size 0 per) hdr_buf
  let d := writeBytes d (mda_offset header_size 1 per) hdr_buf
  let d := writeBytes d (mda_offset header_size 2 per) hdr_buf
  let d := writeBytes d (mda_offset header_size 3 per) hdr_buf
  (⟨region_size, none, none⟩, d)

/-- `MDARegions::load`'s `load_a_region`. -/
def load_a_region (header_size per : Nat) (d : Disk) (index : Nat) :
    Except StratisError (Option MDAHeader) :=
  MDAHeader.from_buf (readBytes d (mda_offset header_size index per) 32) per

/-- `MDARegions::load`'s `get_mda`: fall back to the sibling copy at
`index + 2` on any error from the primary. -/
def get_mda (header_size per : Nat) (d : Disk) (index : Nat) :
    Except StratisError (Option MDAHeader) :=
  match load_a_region header_size per d index with
  | .ok x => .ok x
  | .error _ => load_a_region header_size per d (index + 2)

/-- `MDARegions::load`. -/
def MDARegions.load (header_size size : Nat) (d : Disk) :
    Except StratisError MDARegions :=
  let region_size := size / 4
  let per := region_size * 512
  match get_mda header_size per d 0 with
  | .error e => .error e
  | .ok m0 =>
    match get_mda header_size per d 1 with
    | .error e => .error e
    | .ok m1 => .ok ⟨region_size, m0, m1⟩

/-- `MDARegions::older`: index of the older logical slot.  An empty slot
counts as older; on equal timestamps slot 1 is chosen
(`Ordering::Equal | Ordering::Greater => 1`). -/
def MDARegions.older (r : MDARegions) : Nat :=
  match r.mda0, r.mda1 with
  | none, _ => 0
  | _, none => 1
  | some m0, some m1 => if tsLtb m0.last_updated m1.last_updated then 0 else 1

/-- `MDARegions::newer` (the source `panic!`s on any other value of
`older()`, which cannot occur). -/
def MDARegions.newer (r : MDARegions) : Nat :=
  match r.older with
  | 0 => 1
  | _ => 0

/-- Slot accessor for `self.mdas[i]`, `i ∈ {0, 1}`. -/
def MDARegions.mdaAt (r : MDARegions) (i : Nat) : Option MDAHeader :=
  if i = 0 then r.mda0 else r.mda1

/-- `MDARegions::last_update_time`. -/
def MDARegions.last_update_time (r : MDARegions) : Option Timestamp :=
  (r.mdaAt r.newer).map (·.last_updated)

/-- Update of `self.mdas[i]`. -/
def MDARegions.setMda (r : MDARegions) (i : Nat) (h : MDAHeader) : MDARegions :=
  if i = 0 then { r with mda0 := some h } else { r with mda1 := some h }

/-- `MDARegions::save_state`: reject a non-increasing timestamp, check the
payload size, then write header + payload to the older region and its
sibling, and update the in-memory slot. -/
def MDARegions.save_state (r : MDARegions) (header_size : Nat)
    (time : Timestamp) (data : List Nat) (d : Disk) :
    Except StratisError (MDARegions × Disk) :=
  if newerGe r.last_update_time time then
    .error (.Invalid "Overwriting newer data")
  else
    let region_size := r.region_size * 512
    let used := data.length
    match check_mda_region_size used region_size with
    | .error e => .error e
    | .ok _ =>
      let header : MDAHeader :=
        { last_updated := time, used, data_crc := crc32c data }
      let hdr_buf := header.to_buf
      let older_region := r.older
      let d := writeBytes d (mda_offset header_size older_region region_size)
        (hdr_buf ++ data)
      let d := writeBytes d (mda_offset header_size (older_region + 2) region_size)
        (hdr_buf ++ data)
      .ok (r.setMda older_region header, d)

/-- `MDARegions::load_state`'s `load_region`: read `used` bytes just past
the 32-byte region header of region `index` and check the payload CRC. -/
def load_region (header_size region_size : Nat) (mda : MDAHeader) (d : Disk)
    (index : Nat) : Except StratisError (List Nat) :=
  let data := readBytes d (mda_offset header_size index region_size + 32) mda.used
  if mda.data_crc ≠ crc32c data then
    .error (.Invalid "MDA region data CRC")
  else .ok data

/-- `MDARegions::load_state`: read from the newer slot, falling back to
its sibling copy on any error. -/
def MDARegions.load_state (r : MDARegions) (header_size : Nat) (d : Disk) :
    Except StratisError (Option (List Nat)) :=
  let newer_region := r.newer
  match r.mdaAt newer_region with
  | none => .ok none
  | some mda =>
    let region_size := r.region_size * 512
    match load_region header_size region_size mda d newer_region with
    | .ok v => .ok (some v)
    | .error _ =>
      match load_region header_size region_size mda d (newer_region + 2) with
      | .ok v => .ok (some v)
      | .error e => .error e

/-- `BDA_STATIC_HDR_SIZE = 16 * 512` bytes. -/
def BDA_STATIC_HDR_SIZE : Nat := 8192

/-- `BDA`. -/
structure BDA where
  header : StaticHeader
  regions : MDARegions
deriving DecidableEq, Repr

/-- `BDA::initialize` (renamed: `initialize` is a Lean keyword): write the
static header to both copies, then initialize the MDA regions. -/
def initializeBDA (pool_uuid dev_uuid mda_size blkdev_size
    initialization_time : Nat) (d : Disk) : BDA × Disk :=
  let header := StaticHeader.new pool_uuid dev_uuid mda_size blkdev_size
    initialization_time
  let d := bdaWrite d (sigblock_to_buf header) .Both
  let (regions, d) := initializeMDA BDA_STATIC_HDR_SIZE header.mda_size d
  (⟨header, regions⟩, d)

/-- `BDA::load`. -/
def BDA.loadBDA (d : Disk) : Except StratisError (Option BDA) × Disk :=
  match StaticHeader.setup d with
  | (.ok (some header), d) =>
    (match MDARegions.load BDA_STATIC_HDR_SIZE header.mda_size d with
     | .ok regions => (.ok (some ⟨header, regions⟩), d)
     | .error e => (.error e, d))
  | (.ok none, d) => (.ok none, d)
  | (.error e, d) => (.error e, d)

/-- `BDA::wipe`: zero the 16-sector static-header area. -/
def BDA.wipe (d : Disk) : Disk :=
  writeBytes d 0 (List.replicate 8192 0)

/-- `BDA::save_state` (delegates to the MDA regions engine). -/
def BDA.save_state (b : BDA) (time : Timestamp) (data : List Nat) (d : Disk) :
    Except StratisError (BDA × Disk) :=
  match b.regions.save_state BDA_STATIC_HDR_SIZE time data d with
  | .ok (r, d) => .ok (⟨b.header, r⟩, d)
  | .error e => .error e

/-- `BDA::load_state`. -/
def BDA.load_state (b : BDA) (d : Disk) : Except StratisError (Option (List Nat)) :=
  b.regions.load_state BDA_STATIC_HDR_SIZE d

/-- `BDA::last_update_time`. -/
def BDA.last_update_time (b : BDA) : Option Timestamp :=
  b.regions.last_update_time

/-- The test helper `corrupt_byte` (tests module): read the byte at
`position`, invert it (`!byte`; for a byte value `b < 256` this is
`255 - b`), and write it back. -/
def corrupt_byte (d : Disk) (position : Nat) : Disk :=
  writeBytes d position [255 - d position]

/-- Well-formedness of a `StaticHeader` value: the field bounds that the
Rust types (`u64` sector counts, 128-bit `Uuid`s) enforce. -/
def StaticHeader.WF (h : StaticHeader) : Prop :=
  h.blkdev_size < 18446744073709551616
    ∧ h.pool_uuid < 340282366920938463463374607431768211456
    ∧ h.dev_uuid < 340282366920938463463374607431768211456
    ∧ h.mda_size < 18446744073709551616
    ∧ h.reserved_size < 18446744073709551616
    ∧ h.initialization_time < 18446744073709551616

instance (h : StaticHeader) : Decidable h.WF := by
  unfold StaticHeader.WF
  infer_instance

/-- The 28 bytes `buf[4..32]` of the header that `MDARegions::initialize`
writes: `MDAHeader::default()` has zero CRC, length and timestamp, and
version bytes 1 at offsets 28 and 29. -/
def mdaDefaultBody : List Nat :=
  [0, 0, 0, 0, 0, 0, 0, 0, 0, 0, 0, 0, 0, 0, 0, 0,
   0, 0, 0, 0, 0, 0, 0, 0, 1, 1, 0, 0]

/-- Test fixture: a well-formed header with the larger initialization
time. -/
def shNewer : StaticHeader := ⟨100, 7, 9, 2032, 6144, 0, 10⟩

/-- Test fixture: the same header except for a smaller initialization
time. -/
def shOlder : StaticHeader := ⟨100, 7, 9, 2032, 6144, 0, 5⟩

/-- Test fixture: a disk holding the encoding of `shNewer` as sigblock
copy 1 and of `shOlder` as sigblock copy 2. -/
def dTwoCopies : Disk :=
  writeBytes (writeBytes zeroDisk 512 (sigblock_to_buf shNewer)) 4608
    (sigblock_to_buf shOlder)

/-- Test fixture: the encoding of `shNewer` with the low byte of its
stored CRC inverted. -/
def corruptSig : List Nat :=
  (sigblock_to_buf shNewer).set 0 (255 - (sigblock_to_buf shNewer).getD 0 0)

/-- Test fixture: a disk holding the corrupted sigblock in both copies. -/
def dBothCorrupt : Disk :=
  writeBytes (writeBytes zeroDisk 512 corruptSig) 4608 corruptSig

/-! ## Lengths and byte bounds -/

theorem length_u32ToLe (n : Nat) : (u32ToLe n).length = 4 := rfl

theorem length_u64ToLe (n : Nat) : (u64ToLe n).length = 8 := rfl

theorem length_STRAT_MAGIC : STRAT_MAGIC.length = 16 := rfl

theorem length_uuidToHexBytes (u : Nat) : (uuidToHexBytes u).length = 32 := by
  simp [uuidToHexBytes]

theorem length_sigblockBody (h : StaticHeader) : (sigblockBody h).length = 508 := by
  simp only [sigblockBody, List.length_append, length_uuidToHexBytes,
    length_u64ToLe, length_STRAT_MAGIC, List.length_replicate,
    List.length_cons, List.length_nil]

theorem length_sigblock_to_buf (h : StaticHeader) :
    (sigblock_to_buf h).length = 512 := by
  simp [sigblock_to_buf, length_sigblockBody, u32ToLe]

theorem length_MDAHeader_to_buf (h : MDAHeader) : h.to_buf.length = 32 := by
  simp [MDAHeader.to_buf, u32ToLe, u64ToLe]

theorem length_readBytes (d : Disk) (off n : Nat) :
    (readBytes d off n).length = n := by
  simp [readBytes]

theorem u64ToLe_lt (n : Nat) : ∀ x ∈ u64ToLe n, x < 256 := by
  simp only [u64ToLe, List.mem_cons, List.not_mem_nil, or_false]
  intro x hx
  rcases hx with h | h | h | h | h | h | h | h <;> omega

theorem u32ToLe_lt (n : Nat) : ∀ x ∈ u32ToLe n, x < 256 := by
  simp only [u32ToLe, List.mem_cons, List.not_mem_nil, or_false]
  intro x hx
  rcases hx with h | h | h | h <;> omega

theorem hexChar_lt {d : Nat} (h : d < 16) : hexChar d < 256 := by
  unfold hexChar; split <;> omega

theorem uuidToHexBytes_lt (u : Nat) : ∀ x ∈ uuidToHexBytes u, x < 256 := by
  simp only [uuidToHexBytes, List.mem_map, List.mem_range]
  rintro x ⟨i, -, rfl⟩
  exact hexChar_lt (Nat.mod_lt _ (by norm_num))

theorem sigblockBody_lt (h : StaticHeader) : ∀ x ∈ sigblockBody h, x < 256 := by
  intro x hx
  simp only [sigblockBody, List.append_assoc, List.mem_append] at hx
  rcases hx with hx | hx | hx | hx | hx | hx | hx | hx | hx | hx | hx
  · simp only [STRAT_MAGIC, List.mem_cons, List.not_mem_nil, or_false] at hx
    omega
  · exact u64ToLe_lt _ _ hx
  · simp only [List.mem_singleton] at hx; omega
  · simp only [List.mem_cons, List.not_mem_nil, or_false] at hx; omega
  · exact uuidToHexBytes_lt _ _ hx
  · exact uuidToHexBytes_lt _ _ hx
  · exact u64ToLe_lt _ _ hx
  · exact u64ToLe_lt _ _ hx
  · rw [List.eq_of_mem_replicate hx]; omega
  · exact u64ToLe_lt _ _ hx
  · rw [List.eq_of_mem_replicate hx]; omega

/-! ## Little-endian round trips -/

theorem leToU32_u32ToLe {n : Nat} (h : n < 4294967296) :
    leToU32 (u32ToLe n) = n := by
  simp [leToU32, u32ToLe]; omega

theorem leToU64_u64ToLe {n : Nat} (h : n < 18446744073709551616) :
    leToU64 (u64ToLe n) = n := by
  simp [leToU64, u64ToLe]; omega

/-! ## UUID hex round trip -/

theorem hexVal_hexChar {d : Nat} (h : d < 16) : hexVal (hexChar d) = some d := by
  interval_cases d <;> rfl

theorem foldlM_map_hexChar (ns : List Nat) (hns : ∀ x ∈ ns, x < 16) (a : Nat) :
    (ns.map hexChar).foldlM
      (fun acc c =>
        match hexVal c with
        | some v => Except.ok (acc * 16 + v)
        | none => Except.error (StratisError.Invalid "invalid UUID"))
      a
    = .ok (ns.foldl (fun acc v => acc * 16 + v) a) := by
  induction ns generalizing a with
  | nil => rfl
  | cons x xs ih =>
    have hx : hexVal (hexChar x) = some x :=
      hexVal_hexChar (hns x (List.mem_cons_self x xs))
    simp only [List.map_cons, List.foldlM_cons, hx, List.foldl_cons]
    exact ih (fun y hy => hns y (List.mem_cons_of_mem x hy)) _

theorem range_foldl_nibbles (u : Nat) (hu : u < 16 ^ 32) :
    ∀ k, k ≤ 32 →
      (List.range k).foldl (fun a i => a * 16 + u / 16 ^ (31 - i) % 16) 0
        = u / 16 ^ (32 - k) := by
  intro k
  induction k with
  | zero =>
    intro _
    simp only [List.range_zero, List.foldl_nil]
    exact (Nat.div_eq_of_lt hu).symm
  | succ k ih =>
    intro hk
    rw [List.range_succ, List.foldl_append, ih (by omega)]
    simp only [List.foldl_cons, List.foldl_nil]
    have h1 : 32 - k = (31 - k) + 1 := by omega
    have h2 : 32 - (k + 1) = 31 - k := by omega
    rw [h1, h2, pow_succ, ← Nat.div_div_eq_div_mul]
    omega

theorem parseUuid_uuidToHexBytes {u : Nat} (h : u < 340282366920938463463374607431768211456) :
    parseUuid (uuidToHexBytes u) = .ok u := by
  have hmap : uuidToHexBytes u
      = ((List.range 32).map (fun i => u / 16 ^ (31 - i) % 16)).map hexChar := by
    rw [List.map_map]; rfl
  have hu : u < 16 ^ 32 := by norm_num at h ⊢; exact h
  rw [parseUuid, if_pos (length_uuidToHexBytes u), hmap,
    foldlM_map_hexChar _ (by
      simp only [List.mem_map, List.mem_range]
      rintro x ⟨i, -, rfl⟩
      exact Nat.mod_lt _ (by norm_num))]
  rw [List.foldl_map, range_foldl_nibbles u hu 32 le_rfl]
  norm_num

/-! ## Reading and writing the disk -/

theorem writeBytes_apply (d : Disk) (off : Nat) (data : List Nat) (i : Nat) :
    writeBytes d off data i
      = if off ≤ i ∧ i < off + data.length then data.getD (i - off) 0 else d i :=
  rfl

theorem writeBytes_apply_out (d : Disk) (off : Nat) (data : List Nat) (i : Nat)
    (h : i < off ∨ off + data.length ≤ i) : writeBytes d off data i = d i := by
  rw [writeBytes_apply, if_neg]; omega

theorem readBytes_congr {d d' : Disk} (off n : Nat)
    (h : ∀ i, off ≤ i → i < off + n → d i = d' i) :
    readBytes d off n = readBytes d' off n := by
  unfold readBytes
  apply List.map_congr_left
  intro i hi
  rw [List.mem_range] at hi
  exact h (off + i) (by omega) (by omega)

theorem readBytes_writeBytes_within (d : Disk) (off a n : Nat) (l : List Nat)
    (h : a + n ≤ l.length) :
    readBytes (writeBytes d off l) (off + a) n = sliceBuf l a n := by
  apply List.ext_getElem
  · simp [length_readBytes, sliceBuf]; omega
  · intro i h1 h2
    rw [length_readBytes] at h1
    have hlt : a + i < l.length := by omega
    simp only [readBytes, sliceBuf, List.getElem_map, List.getElem_range,
      List.getElem_take, List.getElem_drop]
    rw [writeBytes_apply, if_pos (by omega)]
    rw [show off + a + i - off = a + i by omega]
    exact List.getD_eq_getElem l 0 hlt

theorem readBytes_writeBytes_self (d : Disk) (off : Nat) (l : List Nat) :
    readBytes (writeBytes d off l) off l.length = l := by
  have := readBytes_writeBytes_within d off 0 l.length l (by omega)
  rw [Nat.add_zero] at this
  rw [this, sliceBuf, List.drop_zero, List.take_length]

theorem readBytes_writeBytes_disjoint (d : Disk) (off : Nat) (l : List Nat)
    (off' n : Nat) (h : off' + n ≤ off ∨ off + l.length ≤ off') :
    readBytes (writeBytes d off l) off' n = readBytes d off' n :=
  readBytes_congr off' n (fun i h1 h2 => writeBytes_apply_out d off l i (by omega))

/-! ## CRC-32C bounds -/

theorem xor_lt_u32 {a b : Nat} (ha : a < 4294967296) (hb : b < 4294967296) :
    a ^^^ b < 4294967296 := by
  have ha' : a < 2 ^ 32 := by norm_num; exact ha
  have hb' : b < 2 ^ 32 := by norm_num; exact hb
  have := Nat.xor_lt_two_pow ha' hb'
  norm_num at this ⊢
  exact this

theorem crc32cStep_lt {c : Nat} (h : c < 4294967296) :
    crc32cStep c < 4294967296 := by
  have hs : c / 2 < 4294967296 := by omega
  unfold crc32cStep
  split
  · exact xor_lt_u32 hs (by norm_num)
  · exact hs

theorem crc32cByte_lt {c b : Nat} (hc : c < 4294967296) (hb : b < 4294967296) :
    crc32cByte c b < 4294967296 := by
  unfold crc32cByte
  exact crc32cStep_lt (crc32cStep_lt (crc32cStep_lt (crc32cStep_lt
    (crc32cStep_lt (crc32cStep_lt (crc32cStep_lt (crc32cStep_lt
      (xor_lt_u32 hc hb))))))))

theorem crc32cFoldl_lt (l : List Nat) (hl : ∀ x ∈ l, x < 4294967296) {c : Nat}
    (hc : c < 4294967296) : l.foldl crc32cByte c < 4294967296 := by
  induction l generalizing c with
  | nil => exact hc
  | cons x xs ih =>
    rw [List.foldl_cons]
    exact ih (fun y hy => hl y (List.mem_cons_of_mem x hy))
      (crc32cByte_lt hc (hl x (List.mem_cons_self x xs)))

theorem crc32c_lt (l : List Nat) (hl : ∀ x ∈ l, x < 4294967296) :
    crc32c l < 4294967296 := by
  unfold crc32c
  have h1 : l.foldl crc32cByte 0xFFFFFFFF < 2 ^ 32 := by
    have := crc32cFoldl_lt l hl (c := 0xFFFFFFFF) (by norm_num)
    norm_num at this ⊢; exact this
  have h2 : (0xFFFFFFFF : Nat) < 2 ^ 32 := by norm_num
  have := Nat.xor_lt_two_pow h1 h2
  norm_num at this ⊢
  exact this

/-! ## Timestamp order facts -/

theorem tsLtb_not_tsLeb {a b : Timestamp} (h : tsLtb a b = true) :
    tsLeb b a = false := by
  simp only [tsLtb, Bool.or_eq_true, Bool.and_eq_true, decide_eq_true_eq] at h
  simp only [tsLeb, Bool.or_eq_false_iff, Bool.and_eq_false_iff,
    decide_eq_false_iff_not]
  omega

theorem tsLeb_total {a b : Timestamp} (h : tsLeb a b = false) :
    tsLtb b a = true := by
  simp only [tsLeb, Bool.or_eq_false_iff, Bool.and_eq_false_iff,
    decide_eq_false_iff_not] at h
  simp only [tsLtb, Bool.or_eq_true, Bool.and_eq_true, decide_eq_true_eq]
  omega

/-! ## Buffer slicing -/

theorem sliceBuf_append_skip {a : List Nat} (b : List Nat) {k : Nat}
    (hk : a.length = k) (n m : Nat) :
    sliceBuf (a ++ b) (k + n) m = sliceBuf b n m := by
  unfold sliceBuf
  rw [← List.drop_drop, List.drop_left' hk]

theorem sliceBuf_append_here {a : List Nat} (b : List Nat) {m : Nat}
    (hm : a.length = m) : sliceBuf (a ++ b) 0 m = a := by
  unfold sliceBuf
  rw [List.drop_zero, List.take_left' hm]

theorem getD_append_skip {a : List Nat} (b : List Nat) {k : Nat}
    (hk : a.length = k) (n : Nat) :
    (a ++ b).getD (k + n) 0 = b.getD n 0 := by
  rw [List.getD_append_right _ _ _ _ (by omega)]
  congr 1
  omega

theorem sliceBuf_append_sub (a b : List Nat) (o m : Nat) (ho : a.length ≤ o) :
    sliceBuf (a ++ b) o m = sliceBuf b (o - a.length) m := by
  have h : o = a.length + (o - a.length) := by omega
  calc sliceBuf (a ++ b) o m
      = sliceBuf (a ++ b) (a.length + (o - a.length)) m := by rw [← h]
    _ = sliceBuf b (o - a.length) m := sliceBuf_append_skip b rfl _ m

theorem sliceBuf_append_exact (a b : List Nat) (m : Nat) (hm : a.length = m) :
    sliceBuf (a ++ b) 0 m = a :=
  sliceBuf_append_here b hm

/-! ## Field extraction from an encoded sigblock -/

theorem sig_drop4 (h : StaticHeader) :
    (sigblock_to_buf h).drop 4 = sigblockBody h := by
  rw [sigblock_to_buf]
  exact List.drop_left' (length_u32ToLe _)

theorem sig_take4 (h : StaticHeader) :
    (sigblock_to_buf h).take 4 = u32ToLe (crc32c (sigblockBody h)) := by
  rw [sigblock_to_buf]
  exact List.take_left' (length_u32ToLe _)

theorem sig_slice_magic (h : StaticHeader) :
    sliceBuf (sigblock_to_buf h) 4 16 = STRAT_MAGIC := by
  simp only [sigblock_to_buf, sigblockBody, List.append_assoc,
    sliceBuf_append_sub, sliceBuf_append_exact, length_u32ToLe,
    length_STRAT_MAGIC, length_u64ToLe, length_uuidToHexBytes,
    List.length_cons, List.length_nil, List.length_replicate,
    List.length_singleton, le_refl, Nat.sub_self, Nat.reduceLeDiff,
    Nat.reduceSub, Nat.reduceEqDiff, Nat.reduceAdd]

theorem sig_slice_blkdev (h : StaticHeader) :
    sliceBuf (sigblock_to_buf h) 20 8 = u64ToLe h.blkdev_size := by
  simp only [sigblock_to_buf, sigblockBody, List.append_assoc,
    sliceBuf_append_sub, sliceBuf_append_exact, length_u32ToLe,
    length_STRAT_MAGIC, length_u64ToLe, length_uuidToHexBytes,
    List.length_cons, List.length_nil, List.length_replicate,
    List.length_singleton, le_refl, Nat.sub_self, Nat.reduceLeDiff,
    Nat.reduceSub, Nat.reduceEqDiff, Nat.reduceAdd]

theorem sig_slice_pool (h : StaticHeader) :
    sliceBuf (sigblock_to_buf h) 32 32 = uuidToHexBytes h.pool_uuid := by
  simp only [sigblock_to_buf, sigblockBody, List.append_assoc,
    sliceBuf_append_sub, sliceBuf_append_exact, length_u32ToLe,
    length_STRAT_MAGIC, length_u64ToLe, length_uuidToHexBytes,
    List.length_cons, List.length_nil, List.length_replicate,
    List.length_singleton, le_refl, Nat.sub_self, Nat.reduceLeDiff,
    Nat.reduceSub, Nat.reduceEqDiff, Nat.reduceAdd]

theorem sig_slice_dev (h : StaticHeader) :
    sliceBuf (sigblock_to_buf h) 64 32 = uuidToHexBytes h.dev_uuid := by
  simp only [sigblock_to_buf, sigblockBody, List.append_assoc,
    sliceBuf_append_sub, sliceBuf_append_exact, length_u32ToLe,
    length_STRAT_MAGIC, length_u64ToLe, length_uuidToHexBytes,
    List.length_cons, List.length_nil, List.length_replicate,
    List.length_singleton, le_refl, Nat.sub_self, Nat.reduceLeDiff,
    Nat.reduceSub, Nat.reduceEqDiff, Nat.reduceAdd]

theorem sig_slice_mda (h : StaticHeader) :
    sliceBuf (sigblock_to_buf h) 96 8 = u64ToLe h.mda_size := by
  simp only [sigblock_to_buf, sigblockBody, List.append_assoc,
    sliceBuf_append_sub, sliceBuf_append_exact, length_u32ToLe,
    length_STRAT_MAGIC, length_u64ToLe, length_uuidToHexBytes,
    List.length_cons, List.length_nil, List.length_replicate,
    List.length_singleton, le_refl, Nat.sub_self, Nat.reduceLeDiff,
    Nat.reduceSub, Nat.reduceEqDiff, Nat.reduceAdd]

theorem sig_slice_reserved (h : StaticHeader) :
    sliceBuf (sigblock_to_buf h) 104 8 = u64ToLe h.reserved_size := by
  simp only [sigblock_to_buf, sigblockBody, List.append_assoc,
    sliceBuf_append_sub, sliceBuf_append_exact, length_u32ToLe,
    length_STRAT_MAGIC, length_u64ToLe, length_uuidToHexBytes,
    List.length_cons, List.length_nil, List.length_replicate,
    List.length_singleton, le_refl, Nat.sub_self, Nat.reduceLeDiff,
    Nat.reduceSub, Nat.reduceEqDiff, Nat.reduceAdd]

theorem sig_slice_itime (h : StaticHeader) :
    sliceBuf (sigblock_to_buf h) 120 8 = u64ToLe h.initialization_time := by
  simp only [sigblock_to_buf, sigblockBody, List.append_assoc,
    sliceBuf_append_sub, sliceBuf_append_exact, length_u32ToLe,
    length_STRAT_MAGIC, length_u64ToLe, length_uuidToHexBytes,
    List.length_cons, List.length_nil, List.length_replicate,
    List.length_singleton, le_refl, Nat.sub_self, Nat.reduceLeDiff,
    Nat.reduceSub, Nat.reduceEqDiff, Nat.reduceAdd]

theorem sig_getD28 (h : StaticHeader) : (sigblock_to_buf h).getD 28 0 = 1 := by
  simp only [sigblock_to_buf, sigblockBody, List.append_assoc,
    List.getD_append_right, length_u32ToLe, length_STRAT_MAGIC,
    length_u64ToLe, le_refl, Nat.sub_self, List.getD_cons_zero,
    List.getD_append, List.length_singleton, Nat.reduceLeDiff,
    Nat.reduceSub, Nat.reduceLT, Nat.lt_irrefl, Nat.zero_lt_one]

/-! ## Sigblock round trip -/

theorem crc32c_sigblockBody_lt (h : StaticHeader) :
    crc32c (sigblockBody h) < 4294967296 :=
  crc32c_lt _ (fun x hx => by have := sigblockBody_lt h x hx; omega)

theorem sigblock_roundtrip {h : StaticHeader} (hwf : h.WF) (hfl : h.flags = 0)
    (hval : validate_mda_size h.mda_size = .ok ()) :
    sigblock_from_buf (sigblock_to_buf h) = .ok (some h) := by
  obtain ⟨hb, hp, hd, hm, hr, ht⟩ := hwf
  simp only [sigblock_from_buf, sig_slice_magic, sig_drop4, sig_take4,
    sig_slice_blkdev, sig_getD28, sig_slice_pool, sig_slice_dev,
    sig_slice_mda, sig_slice_reserved, sig_slice_itime,
    leToU32_u32ToLe (crc32c_sigblockBody_lt h),
    parseUuid_uuidToHexBytes hp, parseUuid_uuidToHexBytes hd,
    leToU64_u64ToLe hb, leToU64_u64ToLe hm, leToU64_u64ToLe hr,
    leToU64_u64ToLe ht, hval, ne_eq, not_true_eq_false, if_false]
  obtain ⟨bs, pu, du, ms, rs, fl, it⟩ := h
  subst hfl
  rfl

/-! ## Save and load helpers -/

theorem tsLtb_asymm {a b : Timestamp} (h : tsLtb a b = true) :
    tsLtb b a = false := by
  simp only [tsLtb, Bool.or_eq_true, Bool.and_eq_true, decide_eq_true_eq] at h
  simp only [tsLtb, Bool.or_eq_false_iff, Bool.and_eq_false_iff,
    decide_eq_false_iff_not]
  omega

theorem tsLtb_irrefl (a : Timestamp) : tsLtb a a = false := by
  simp only [tsLtb, Bool.or_eq_false_iff, Bool.and_eq_false_iff,
    decide_eq_false_iff_not]
  omega

theorem save_state_ok (r : MDARegions) (hs : Nat) (t : Timestamp)
    (data : List Nat) (d : Disk)
    (hmono : newerGe r.last_update_time t = false)
    (hsize : 32 + data.length ≤ r.region_size * 512) :
    r.save_state hs t data d
      = .ok (r.setMda r.older ⟨t, data.length, crc32c data⟩,
          writeBytes
            (writeBytes d (mda_offset hs r.older (r.region_size * 512))
              ((⟨t, data.length, crc32c data⟩ : MDAHeader).to_buf ++ data))
            (mda_offset hs (r.older + 2) (r.region_size * 512))
            ((⟨t, data.length, crc32c data⟩ : MDAHeader).to_buf ++ data)) := by
  have hchk : check_mda_region_size data.length (r.region_size * 512) = .ok () := by
    simp only [check_mda_region_size, gt_iff_lt]
    rw [if_neg (by omega)]
  simp only [MDARegions.save_state, hmono, Bool.false_eq_true, if_false, hchk]

theorem load_state_ok (r : MDARegions) (hs : Nat) (d : Disk)
    (mda : MDAHeader) (data0 : List Nat)
    (hnew : r.mdaAt r.newer = some mda)
    (hread : readBytes d (mda_offset hs r.newer (r.region_size * 512) + 32)
      mda.used = data0)
    (hcrc : mda.data_crc = crc32c data0) :
    r.load_state hs d = .ok (some data0) := by
  simp only [MDARegions.load_state, hnew, load_region, hread, hcrc, ne_eq,
    not_true_eq_false, reduceIte]

theorem sliceBuf_all (l : List Nat) : sliceBuf l 0 l.length = l := by
  simp [sliceBuf]

theorem readBytes_after_save (d : Disk) (o1 o2 : Nat) (hdr data : List Nat)
    (hhdr : hdr.length = 32) (hdisj : o1 + 32 + data.length ≤ o2) :
    readBytes (writeBytes (writeBytes d o1 (hdr ++ data)) o2 (hdr ++ data))
      (o1 + 32) data.length = data := by
  rw [readBytes_writeBytes_disjoint _ _ _ _ _ (Or.inl (by omega))]
  have hwin := readBytes_writeBytes_within d o1 32 data.length (hdr ++ data)
    (by simp [hhdr])
  rw [hwin]
  have hskip := sliceBuf_append_skip (a := hdr) data hhdr 0 data.length
  rw [show (32 : Nat) + 0 = 32 from rfl] at hskip
  rw [hskip, sliceBuf_all]

/-- C1: on a freshly initialized BDA with a valid `mda_size`, three
`save_state` calls with strictly increasing timestamps write to the older
logical slot, alternating 0, 1, 0; after each save, `load_state` returns
the payload just saved and `last_update_time` returns its timestamp. -/
theorem C1_save_load_alternation
    (pool dev mda blkdev it : Nat) (t1 t2 t3 : Timestamp)
    (d1 d2 d3 : List Nat) (d0 : Disk)
    (hm4 : mda % 4 = 0) (hmin : 2032 ≤ mda)
    (h12 : tsLtb t1 t2 = true) (h23 : tsLtb t2 t3 = true)
    (hs1 : 32 + d1.length ≤ mda / 4 * 512)
    (hs2 : 32 + d2.length ≤ mda / 4 * 512)
    (hs3 : 32 + d3.length ≤ mda / 4 * 512) :
    (initializeBDA pool dev mda blkdev it d0).1.regions.older = 0
    ∧ ∃ bda1 k1,
        (initializeBDA pool dev mda blkdev it d0).1.save_state t1 d1
          (initializeBDA pool dev mda blkdev it d0).2 = .ok (bda1, k1)
        ∧ bda1.load_state k1 = .ok (some d1)
        ∧ bda1.last_update_time = some t1
        ∧ bda1.regions.older = 1
        ∧ ∃ bda2 k2, bda1.save_state t2 d2 k1 = .ok (bda2, k2)
          ∧ bda2.load_state k2 = .ok (some d2)
          ∧ bda2.last_update_time = some t2
          ∧ bda2.regions.older = 0
          ∧ ∃ bda3 k3, bda2.save_state t3 d3 k2 = .ok (bda3, k3)
            ∧ bda3.load_state k3 = .ok (some d3)
            ∧ bda3.last_update_time = some t3 := by
  have hrs : 508 ≤ mda / 4 := by omega
  set SH := StaticHeader.new pool dev mda blkdev it with hSH
  set k0 := (initializeBDA pool dev mda blkdev it d0).2 with hk0
  set R0 : MDARegions := ⟨mda / 4, none, none⟩ with hR0
  set hdr1 : MDAHeader := ⟨t1, d1.length, crc32c d1⟩ with hhdr1
  set hdr2 : MDAHeader := ⟨t2, d2.length, crc32c d2⟩ with hhdr2
  set hdr3 : MDAHeader := ⟨t3, d3.length, crc32c d3⟩ with hhdr3
  set R1 : MDARegions := ⟨mda / 4, some hdr1, none⟩ with hR1
  set R2 : MDARegions := ⟨mda / 4, some hdr1, some hdr2⟩ with hR2
  set R3 : MDARegions := ⟨mda / 4, some hdr3, some hdr2⟩ with hR3
  set K1 := writeBytes
      (writeBytes k0 (8192 + mda / 4 * 512 * 0) (hdr1.to_buf ++ d1))
      (8192 + mda / 4 * 512 * 2) (hdr1.to_buf ++ d1) with hK1
  set K2 := writeBytes
      (writeBytes K1 (8192 + mda / 4 * 512 * 1) (hdr2.to_buf ++ d2))
      (8192 + mda / 4 * 512 * 3) (hdr2.to_buf ++ d2) with hK2
  set K3 := writeBytes
      (writeBytes K2 (8192 + mda / 4 * 512 * 0) (hdr3.to_buf ++ d3))
      (8192 + mda / 4 * 512 * 2) (hdr3.to_buf ++ d3) with hK3
  -- first save
  have e1 : R0.save_state BDA_STATIC_HDR_SIZE t1 d1 k0 = .ok (R1, K1) := by
    rw [save_state_ok R0 BDA_STATIC_HDR_SIZE t1 d1 k0 rfl hs1]
    rfl
  have r1read : readBytes K1 (8192 + mda / 4 * 512 * 0 + 32) d1.length = d1 := by
    rw [hK1]
    exact readBytes_after_save k0 _ _ hdr1.to_buf d1
      (length_MDAHeader_to_buf hdr1) (by omega)
  have hload1 : R1.load_state BDA_STATIC_HDR_SIZE K1 = .ok (some d1) :=
    load_state_ok R1 BDA_STATIC_HDR_SIZE K1 hdr1 d1 rfl r1read rfl
  -- second save
  have hmono2 : newerGe R1.last_update_time t2 = false := by
    show tsLeb t2 t1 = false
    exact tsLtb_not_tsLeb h12
  have e2 : R1.save_state BDA_STATIC_HDR_SIZE t2 d2 K1 = .ok (R2, K2) := by
    rw [save_state_ok R1 BDA_STATIC_HDR_SIZE t2 d2 K1 hmono2 hs2]
    rfl
  have holder2 : R2.older = 0 := by
    simp only [hR2, MDARegions.older, hhdr1, hhdr2, h12, reduceIte]
  have hnewer2 : R2.newer = 1 := by
    simp only [MDARegions.newer, holder2]
  have r2read : readBytes K2 (8192 + mda / 4 * 512 * 1 + 32) d2.length = d2 := by
    rw [hK2]
    exact readBytes_after_save K1 _ _ hdr2.to_buf d2
      (length_MDAHeader_to_buf hdr2) (by omega)
  have hnew2 : R2.mdaAt R2.newer = some hdr2 := by
    rw [hnewer2]
    rfl
  have hread2 : readBytes K2
      (mda_offset BDA_STATIC_HDR_SIZE R2.newer (R2.region_size * 512) + 32)
      hdr2.used = d2 := by
    rw [hnewer2]
    exact r2read
  have hload2 : R2.load_state BDA_STATIC_HDR_SIZE K2 = .ok (some d2) :=
    load_state_ok R2 BDA_STATIC_HDR_SIZE K2 hdr2 d2 hnew2 hread2 rfl
  have hlut2 : R2.last_update_time = some t2 := by
    simp only [MDARegions.last_update_time, hnewer2]
    rfl
  -- third save
  have hmono3 : newerGe R2.last_update_time t3 = false := by
    rw [hlut2]
    show tsLeb t3 t2 = false
    exact tsLtb_not_tsLeb h23
  have e3 : R2.save_state BDA_STATIC_HDR_SIZE t3 d3 K2 = .ok (R3, K3) := by
    rw [save_state_ok R2 BDA_STATIC_HDR_SIZE t3 d3 K2 hmono3 hs3, holder2]
    rfl
  have holder3 : R3.older = 1 := by
    simp only [hR3, MDARegions.older, hhdr2, hhdr3, tsLtb_asymm h23,
      Bool.false_eq_true, reduceIte]
  have hnewer3 : R3.newer = 0 := by
    simp only [MDARegions.newer, holder3]
  have r3read : readBytes K3 (8192 + mda / 4 * 512 * 0 + 32) d3.length = d3 := by
    rw [hK3]
    exact readBytes_after_save K2 _ _ hdr3.to_buf d3
      (length_MDAHeader_to_buf hdr3) (by omega)
  have hnew3 : R3.mdaAt R3.newer = some hdr3 := by
    rw [hnewer3]
    rfl
  have hread3 : readBytes K3
      (mda_offset BDA_STATIC_HDR_SIZE R3.newer (R3.region_size * 512) + 32)
      hdr3.used = d3 := by
    rw [hnewer3]
    exact r3read
  have hload3 : R3.load_state BDA_STATIC_HDR_SIZE K3 = .ok (some d3) :=
    load_state_ok R3 BDA_STATIC_HDR_SIZE K3 hdr3 d3 hnew3 hread3 rfl
  have hlut3 : R3.last_update_time = some t3 := by
    simp only [MDARegions.last_update_time, hnewer3]
    rfl
  -- lift to the BDA level
  have E1 : BDA.save_state ⟨SH, R0⟩ t1 d1 k0 = .ok (⟨SH, R1⟩, K1) := by
    simp only [BDA.save_state, e1]
  have E2 : BDA.save_state ⟨SH, R1⟩ t2 d2 K1 = .ok (⟨SH, R2⟩, K2) := by
    simp only [BDA.save_state, e2]
  have E3 : BDA.save_state ⟨SH, R2⟩ t3 d3 K2 = .ok (⟨SH, R3⟩, K3) := by
    simp only [BDA.save_state, e3]
  refine ⟨rfl, ⟨SH, R1⟩, K1, E1, hload1, rfl, rfl,
    ⟨SH, R2⟩, K2, E2, hload2, hlut2, holder2,
    ⟨SH, R3⟩, K3, E3, hload3, hlut3⟩

/-- C1, applied at concrete inputs. -/
theorem C1_save_load_alternation_witness :
    tsLtb ⟨1, 0⟩ ⟨2, 0⟩ = true
    ∧ (initializeBDA 0 0 2032 0 0 zeroDisk).1.regions.older = 0 :=
  ⟨by decide,
    (C1_save_load_alternation 0 0 2032 0 0 ⟨1, 0⟩ ⟨2, 0⟩ ⟨3, 0⟩
      [0xde] [0x01] [0x02] zeroDisk (by decide) (by decide) (by decide)
      (by decide) (by decide) (by decide) (by decide)).1⟩

/-- C3: whenever the newest recorded timestamp is `>=` the requested one
(ties included), `save_state` fails with "Overwriting newer data"; and in
the save-then-stale-save scenario the failed save leaves the payload of
the newer save readable. -/
theorem C3_reject_stale_save (r : MDARegions) (hs : Nat) (t : Timestamp)
    (data : List Nat) (d : Disk)
    (pool dev mda blkdev it : Nat) (t_old t_new : Timestamp)
    (d_new d_stale : List Nat) (d0 : Disk)
    (hge : newerGe r.last_update_time t = true)
    (hm4 : mda % 4 = 0) (hmin : 2032 ≤ mda)
    (hle : tsLeb t_old t_new = true)
    (hsnew : 32 + d_new.length ≤ mda / 4 * 512) :
    r.save_state hs t data d = .error (.Invalid "Overwriting newer data")
    ∧ ∃ bda1 k1,
        (initializeBDA pool dev mda blkdev it d0).1.save_state t_new d_new
          (initializeBDA pool dev mda blkdev it d0).2 = .ok (bda1, k1)
        ∧ bda1.save_state t_old d_stale k1
            = .error (.Invalid "Overwriting newer data")
        ∧ bda1.load_state k1 = .ok (some d_new) := by
  constructor
  · simp only [MDARegions.save_state, hge, reduceIte]
  · have hrs : 508 ≤ mda / 4 := by omega
    set SH := StaticHeader.new pool dev mda blkdev it with hSH
    set k0 := (initializeBDA pool dev mda blkdev it d0).2 with hk0
    set R0 : MDARegions := ⟨mda / 4, none, none⟩ with hR0
    set hdr1 : MDAHeader := ⟨t_new, d_new.length, crc32c d_new⟩ with hhdr1
    set R1 : MDARegions := ⟨mda / 4, some hdr1, none⟩ with hR1
    set K1 := writeBytes
        (writeBytes k0 (8192 + mda / 4 * 512 * 0) (hdr1.to_buf ++ d_new))
        (8192 + mda / 4 * 512 * 2) (hdr1.to_buf ++ d_new) with hK1
    have e1 : R0.save_state BDA_STATIC_HDR_SIZE t_new d_new k0 = .ok (R1, K1) := by
      rw [save_state_ok R0 BDA_STATIC_HDR_SIZE t_new d_new k0 rfl hsnew]
      rfl
    have r1read : readBytes K1 (8192 + mda / 4 * 512 * 0 + 32) d_new.length
        = d_new := by
      rw [hK1]
      exact readBytes_after_save k0 _ _ hdr1.to_buf d_new
        (length_MDAHeader_to_buf hdr1) (by omega)
    have hload1 : R1.load_state BDA_STATIC_HDR_SIZE K1 = .ok (some d_new) :=
      load_state_ok R1 BDA_STATIC_HDR_SIZE K1 hdr1 d_new rfl r1read rfl
    have hstale : R1.save_state BDA_STATIC_HDR_SIZE t_old d_stale K1
        = .error (.Invalid "Overwriting newer data") := by
      have hge1 : newerGe R1.last_update_time t_old = true := by
        show tsLeb t_old t_new = true
        exact hle
      simp only [MDARegions.save_state, hge1, reduceIte]
    have E1 : BDA.save_state ⟨SH, R0⟩ t_new d_new k0 = .ok (⟨SH, R1⟩, K1) := by
      simp only [BDA.save_state, e1]
    have Estale : BDA.save_state ⟨SH, R1⟩ t_old d_stale K1
        = .error (.Invalid "Overwriting newer data") := by
      simp only [BDA.save_state, hstale]
    exact ⟨⟨SH, R1⟩, K1, E1, Estale, hload1⟩

/-- C3, applied at concrete inputs. -/
theorem C3_reject_stale_save_witness :
    newerGe (MDARegions.last_update_time
        ⟨508, none, some ⟨⟨5, 0⟩, 0, 0⟩⟩) ⟨5, 0⟩ = true
    ∧ MDARegions.save_state ⟨508, none, some ⟨⟨5, 0⟩, 0, 0⟩⟩ 8192 ⟨5, 0⟩
        [1] zeroDisk = .error (.Invalid "Overwriting newer data") :=
  ⟨by decide,
    (C3_reject_stale_save ⟨508, none, some ⟨⟨5, 0⟩, 0, 0⟩⟩ 8192 ⟨5, 0⟩
      [1] zeroDisk 0 0 2032 0 0 ⟨1, 0⟩ ⟨2, 0⟩ [7] [8] zeroDisk
      (by decide) (by decide) (by decide) (by decide) (by decide)).1⟩

/-- C4 counterexample: with both slots holding headers with equal
`last_updated` timestamps, `newer()` is 0, not 1 as the claim states
(`older()` returns 1 on a tie: `Ordering::Equal | Ordering::Greater => 1`). -/
theorem C4_tie_counterexample :
    MDARegions.older ⟨508, some ⟨⟨7, 0⟩, 1, 11⟩, some ⟨⟨7, 0⟩, 2, 22⟩⟩ = 1
    ∧ ¬ (MDARegions.newer ⟨508, some ⟨⟨7, 0⟩, 1, 11⟩,
          some ⟨⟨7, 0⟩, 2, 22⟩⟩ = 1) := by
  decide

/-- C4 (amended): whenever both logical MDA slots hold headers with equal
`last_updated` timestamps, slot 1 is the *older* slot: `older()` returns 1,
`newer()` returns 0, and `last_update_time()` returns the (shared)
timestamp, i.e. the timestamp stored in `mdas[1]`. -/
theorem C4_tie_is_older (r : MDARegions) (m0 m1 : MDAHeader)
    (h0 : r.mda0 = some m0) (h1 : r.mda1 = some m1)
    (heq : m0.last_updated = m1.last_updated) :
    r.older = 1 ∧ r.newer = 0
    ∧ r.last_update_time = some m1.last_updated := by
  have holder : r.older = 1 := by
    simp only [MDARegions.older, h0, h1, heq, tsLtb_irrefl,
      Bool.false_eq_true, reduceIte]
  have hnewer : r.newer = 0 := by
    simp only [MDARegions.newer, holder]
  refine ⟨holder, hnewer, ?_⟩
  simp only [MDARegions.last_update_time, hnewer, MDARegions.mdaAt,
    reduceIte, h0, Option.map_some', heq]

/-- C4 (amended), applied at concrete inputs. -/
theorem C4_tie_is_older_witness :
    MDARegions.newer ⟨508, some ⟨⟨7, 0⟩, 1, 11⟩, some ⟨⟨7, 0⟩, 2, 22⟩⟩ = 0 :=
  (C4_tie_is_older ⟨508, some ⟨⟨7, 0⟩, 1, 11⟩, some ⟨⟨7, 0⟩, 2, 22⟩⟩
    ⟨⟨7, 0⟩, 1, 11⟩ ⟨⟨7, 0⟩, 2, 22⟩ rfl rfl rfl).2.1

/-- C9: with the monotonicity check passed, `save_state` fails with the
region-size error exactly when `32 + len(data)` exceeds the region size in
bytes; any payload with `32 + len(data) ≤ region_size_bytes` (equality
included) is accepted. -/
theorem C9_size_check (r : MDARegions) (hs : Nat) (t : Timestamp)
    (data : List Nat) (d : Disk)
    (hmono : newerGe r.last_update_time t = false) :
    (r.save_state hs t data d
        = .error (.Invalid "metadata length exceeds region available")
      ↔ r.region_size * 512 < 32 + data.length)
    ∧ (32 + data.length ≤ r.region_size * 512 →
        ∃ x, r.save_state hs t data d = .ok x) := by
  by_cases hsz : 32 + data.length ≤ r.region_size * 512
  · have hok := save_state_ok r hs t data d hmono hsz
    constructor
    · rw [hok]
      constructor
      · intro hcon
        exact absurd hcon (by simp)
      · intro hcon
        omega
    · intro _
      exact ⟨_, hok⟩
  · have herr : r.save_state hs t data d
        = .error (.Invalid "metadata length exceeds region available") := by
      have hchk : check_mda_region_size data.length (r.region_size * 512)
          = .error (.Invalid "metadata length exceeds region available") := by
        simp only [check_mda_region_size, gt_iff_lt]
        rw [if_pos (by omega)]
      simp only [MDARegions.save_state, hmono, Bool.false_eq_true,
        if_false, hchk]
    constructor
    · rw [herr]
      constructor
      · intro _
        omega
      · intro _
        rfl
    · intro hcon
      omega

/-- C9, applied at concrete inputs. -/
theorem C9_size_check_witness :
    newerGe (MDARegions.last_update_time ⟨508, none, none⟩) ⟨1, 0⟩ = false
    ∧ (MDARegions.save_state ⟨508, none, none⟩ 8192 ⟨1, 0⟩
          (List.replicate 300000 0) zeroDisk
        = .error (.Invalid "metadata length exceeds region available")
      ↔ 508 * 512 < 32 + (List.replicate 300000 (0 : Nat)).length) :=
  ⟨rfl, (C9_size_check ⟨508, none, none⟩ 8192 ⟨1, 0⟩
    (List.replicate 300000 0) zeroDisk rfl).1⟩

/-! ## All-zero and default MDA region headers -/

theorem readBytes_zeroDisk (off n : Nat) :
    readBytes zeroDisk off n = List.replicate n 0 := by
  apply List.ext_getElem
  · simp [length_readBytes]
  · intro i h1 h2
    simp only [readBytes, List.getElem_map, List.getElem_range,
      List.getElem_replicate]
    rfl

theorem mda_from_buf_allzero (rs : Nat) :
    MDAHeader.from_buf (List.replicate 32 0) rs
      = .error (.Invalid "MDA region header CRC") := by
  have h1 : (List.replicate 32 (0 : Nat)).drop 4 = List.replicate 28 0 := rfl
  have h2 : leToU32 (sliceBuf (List.replicate 32 0) 0 4) = 0 := rfl
  have h3 : crc32c (List.replicate 28 0) = 4157196137 := by
    simp [crc32c, crc32cByte, crc32cStep]
  simp only [MDAHeader.from_buf, h1, h2, h3, ne_eq, Nat.reduceEqDiff,
    not_false_eq_true, reduceIte]

theorem load_a_region_zeroDisk (hsz per i : Nat) :
    load_a_region hsz per zeroDisk i
      = .error (.Invalid "MDA region header CRC") := by
  rw [load_a_region, readBytes_zeroDisk]
  exact mda_from_buf_allzero per

theorem mdaRegions_load_zeroDisk (hsz size : Nat) :
    MDARegions.load hsz size zeroDisk
      = .error (.Invalid "MDA region header CRC") := by
  rw [MDARegions.load, get_mda, load_a_region_zeroDisk, get_mda,
    load_a_region_zeroDisk]

theorem mda_default_to_buf :
    MDAHeader.default.to_buf = u32ToLe (crc32c mdaDefaultBody) ++ mdaDefaultBody :=
  rfl

theorem mda_from_buf_default (rs : Nat) :
    MDAHeader.from_buf MDAHeader.default.to_buf rs = .ok none := by
  have hc : crc32c mdaDefaultBody < 4294967296 :=
    crc32c_lt _ (by decide)
  have e0 : sliceBuf MDAHeader.default.to_buf 0 4
      = u32ToLe (crc32c mdaDefaultBody) := by
    rw [mda_default_to_buf]
    unfold sliceBuf
    rw [List.drop_zero]
    exact List.take_left' (length_u32ToLe _)
  have e1 : MDAHeader.default.to_buf.drop 4 = mdaDefaultBody := by
    rw [mda_default_to_buf]
    exact List.drop_left' (length_u32ToLe _)
  have e28 : MDAHeader.default.to_buf.getD 28 0 = 1 := by
    rw [mda_default_to_buf, show (28 : Nat) = 4 + 24 from rfl,
      getD_append_skip mdaDefaultBody (length_u32ToLe _)]
    rfl
  have e29 : MDAHeader.default.to_buf.getD 29 0 = 1 := by
    rw [mda_default_to_buf, show (29 : Nat) = 4 + 25 from rfl,
      getD_append_skip mdaDefaultBody (length_u32ToLe _)]
    rfl
  have e16 : leToU64 (sliceBuf MDAHeader.default.to_buf 16 8) = 0 := by
    rw [mda_default_to_buf, show (16 : Nat) = 4 + 12 from rfl,
      sliceBuf_append_skip mdaDefaultBody (length_u32ToLe _)]
    rfl
  simp only [MDAHeader.from_buf, e0, e1, e28, e29, e16,
    leToU32_u32ToLe hc, ne_eq, not_true_eq_false, reduceIte,
    Nat.reduceEqDiff, not_false_eq_true]

theorem mda_from_buf_none_necc (buf : List Nat) (rs : Nat)
    (hb : MDAHeader.from_buf buf rs = .ok none) :
    leToU32 (sliceBuf buf 0 4) = crc32c (buf.drop 4)
    ∧ buf.getD 28 0 = 1 ∧ buf.getD 29 0 = 1
    ∧ leToU64 (sliceBuf buf 16 8) = 0 := by
  rw [MDAHeader.from_buf] at hb
  split_ifs at hb with hc1 hc2 hc3
  split at hb
  next hsec => exact ⟨by omega, by omega, by omega, hsec⟩
  next n hsec =>
    simp only [] at hb
    split at hb
    · simp at hb
    · simp at hb

/-- C10: an all-zero 32-byte MDA region header fails the CRC check (which
precedes the zero-timestamp emptiness test), so `MDAHeader::from_buf`
returns the CRC error rather than `Ok(None)`; `MDARegions::load` on an
all-zero device therefore fails; the header written by
`MDARegions::initialize` (correct CRC, version bytes 1, zero timestamp) is
recognized as an empty slot; and any buffer recognized as empty must have
a correct CRC, version bytes 1 and a zero timestamp. -/
theorem C10_allzero_region_not_empty (buf : List Nat) (rs hsz size : Nat) :
    MDAHeader.from_buf (List.replicate 32 0) rs
        = .error (.Invalid "MDA region header CRC")
    ∧ MDARegions.load hsz size zeroDisk
        = .error (.Invalid "MDA region header CRC")
    ∧ MDAHeader.from_buf MDAHeader.default.to_buf rs = .ok none
    ∧ (MDAHeader.from_buf buf rs = .ok none →
        leToU32 (sliceBuf buf 0 4) = crc32c (buf.drop 4)
        ∧ buf.getD 28 0 = 1 ∧ buf.getD 29 0 = 1
        ∧ leToU64 (sliceBuf buf 16 8) = 0) :=
  ⟨mda_from_buf_allzero rs, mdaRegions_load_zeroDisk hsz size,
    mda_from_buf_default rs, mda_from_buf_none_necc buf rs⟩

/-- C10, applied at concrete inputs. -/
theorem C10_allzero_region_not_empty_witness :
    MDAHeader.from_buf MDAHeader.default.to_buf 260096 = .ok none
    ∧ leToU64 (sliceBuf MDAHeader.default.to_buf 16 8) = 0 := by
  have T := C10_allzero_region_not_empty MDAHeader.default.to_buf 260096 8192 2032
  exact ⟨T.2.2.1, (T.2.2.2 T.2.2.1).2.2.2⟩

/-- C2: decoding the encoding of any well-formed `StaticHeader` with zero
flags and a valid `mda_size` (multiple of 4, at least 2032 sectors)
succeeds and reproduces the header field-for-field. -/
theorem C2_sigblock_roundtrip (h : StaticHeader) (hwf : h.WF)
    (hfl : h.flags = 0) (hm4 : h.mda_size % 4 = 0)
    (hmin : 2032 ≤ h.mda_size) :
    sigblock_from_buf (sigblock_to_buf h) = .ok (some h) := by
  apply sigblock_roundtrip hwf hfl
  unfold validate_mda_size MIN_MDA_SECTORS
  rw [if_neg (by omega), if_neg (by omega)]

/-- C2, applied at a concrete header. -/
theorem C2_sigblock_roundtrip_witness :
    StaticHeader.WF ⟨100, 7, 9, 2032, 6144, 0, 42⟩
    ∧ sigblock_from_buf (sigblock_to_buf ⟨100, 7, 9, 2032, 6144, 0, 42⟩)
        = .ok (some ⟨100, 7, 9, 2032, 6144, 0, 42⟩) :=
  ⟨by decide,
    C2_sigblock_roundtrip ⟨100, 7, 9, 2032, 6144, 0, 42⟩ (by decide) rfl
      (by decide) (by decide)⟩

/-! ## Disks carrying two sigblock copies -/

theorem readBytes_twoWrites_first (d : Disk) (bufA bufB : List Nat)
    (hlenA : bufA.length = 512) :
    readBytes (writeBytes (writeBytes d 512 bufA) 4608 bufB) 512 512
      = bufA := by
  rw [readBytes_writeBytes_disjoint _ _ _ _ _ (Or.inl (by omega))]
  have hself := readBytes_writeBytes_self d 512 bufA
  rw [hlenA] at hself
  exact hself

theorem readBytes_twoWrites_second (d : Disk) (bufA bufB : List Nat)
    (hlenB : bufB.length = 512) :
    readBytes (writeBytes (writeBytes d 512 bufA) 4608 bufB) 4608 512
      = bufB := by
  have hself := readBytes_writeBytes_self (writeBytes d 512 bufA) 4608 bufB
  rw [hlenB] at hself
  exact hself

/-- C5: when both sigblock copies decode to valid headers `a` and `b`,
`setup` keeps the disk untouched and returns `a` if `a = b`; otherwise it
repairs the copy with the smaller `initialization_time` from the other
copy's buffer and returns the header with the larger one (ties favor
copy 2). -/
theorem C5_setup_both_valid (d : Disk) (a b : StaticHeader)
    (h1 : sigblock_from_buf (readBytes d 512 512) = .ok (some a))
    (h2 : sigblock_from_buf (readBytes d 4608 512) = .ok (some b)) :
    (a = b → StaticHeader.setup d = (.ok (some a), d))
    ∧ (a ≠ b → b.initialization_time < a.initialization_time →
        StaticHeader.setup d
          = (.ok (some a), bdaWrite d (readBytes d 512 512) .Second))
    ∧ (a ≠ b → ¬ b.initialization_time < a.initialization_time →
        StaticHeader.setup d
          = (.ok (some b), bdaWrite d (readBytes d 4608 512) .First)) := by
  refine ⟨?_, ?_, ?_⟩
  · intro hab
    simp only [StaticHeader.setup, bdaRead, h1, h2, hab, reduceIte]
  · intro hab hlt
    simp only [StaticHeader.setup, bdaRead, h1, h2, if_neg hab, if_pos hlt]
  · intro hab hlt
    simp only [StaticHeader.setup, bdaRead, h1, h2, if_neg hab, if_neg hlt]

theorem decode_dTwoCopies_first :
    sigblock_from_buf (readBytes dTwoCopies 512 512) = .ok (some shNewer) := by
  rw [dTwoCopies, readBytes_twoWrites_first _ _ _ (length_sigblock_to_buf _)]
  exact sigblock_roundtrip (by decide) rfl (by decide)

theorem decode_dTwoCopies_second :
    sigblock_from_buf (readBytes dTwoCopies 4608 512) = .ok (some shOlder) := by
  rw [dTwoCopies, readBytes_twoWrites_second _ _ _ (length_sigblock_to_buf _)]
  exact sigblock_roundtrip (by decide) rfl (by decide)

/-- C5, applied at concrete inputs: two valid copies, copy 2 older, so
`setup` rewrites the second location from copy 1 and returns copy 1. -/
theorem C5_setup_both_valid_witness :
    StaticHeader.setup dTwoCopies
      = (.ok (some shNewer),
          bdaWrite dTwoCopies (readBytes dTwoCopies 512 512) .Second) :=
  (C5_setup_both_valid dTwoCopies shNewer shOlder decode_dTwoCopies_first
      decode_dTwoCopies_second).2.1
    (by decide) (by decide)

/-- C7: when no sigblock copy fully validates, `setup` returns no header
and performs no repair write: no magic on either copy gives `Ok(None)`;
one copy without magic plus one failing validation surfaces that copy's
error; two copies failing validation give the no-valid-sigblock error. -/
theorem C7_no_valid_sigblock (d : Disk) (e e1 e2 : StratisError) :
    (sigblock_from_buf (readBytes d 512 512) = .ok none →
      sigblock_from_buf (readBytes d 4608 512) = .ok none →
      StaticHeader.setup d = (.ok none, d))
    ∧ (sigblock_from_buf (readBytes d 512 512) = .ok none →
        sigblock_from_buf (readBytes d 4608 512) = .error e →
        StaticHeader.setup d = (.error e, d))
    ∧ (sigblock_from_buf (readBytes d 512 512) = .error e →
        sigblock_from_buf (readBytes d 4608 512) = .ok none →
        StaticHeader.setup d = (.error e, d))
    ∧ (sigblock_from_buf (readBytes d 512 512) = .error e1 →
        sigblock_from_buf (readBytes d 4608 512) = .error e2 →
        StaticHeader.setup d
          = (.error (.Invalid
              "Appeared to be a Stratis device, but no valid sigblock found"),
             d)) := by
  refine ⟨?_, ?_, ?_, ?_⟩ <;> intro hc1 hc2 <;>
    simp only [StaticHeader.setup, bdaRead, hc1, hc2]

/-! ## Setup on the all-zero and freshly initialized disks -/

theorem sigblock_from_buf_allzero :
    sigblock_from_buf (List.replicate 512 0) = .ok none := by
  have hmag : sliceBuf (List.replicate 512 0) 4 16 ≠ STRAT_MAGIC := by decide
  rw [sigblock_from_buf, if_pos hmag]

theorem setup_zeroDisk : StaticHeader.setup zeroDisk = (.ok none, zeroDisk) := by
  have hz : sigblock_from_buf (readBytes zeroDisk 512 512) = .ok none := by
    rw [readBytes_zeroDisk]
    exact sigblock_from_buf_allzero
  have hz2 : sigblock_from_buf (readBytes zeroDisk 4608 512) = .ok none := by
    rw [readBytes_zeroDisk]
    exact sigblock_from_buf_allzero
  simp only [StaticHeader.setup, bdaRead, hz, hz2]

theorem readBytes_bdaRegion (d : Disk) (off : Nat) (buf : List Nat)
    (hlen : buf.length = 512) :
    readBytes (writeBytes d off (bdaRegionBytes buf)) (off + 512) 512 = buf := by
  have hw := readBytes_writeBytes_within d off 512 512 (bdaRegionBytes buf)
    (by
      rw [bdaRegionBytes]
      simp only [List.length_append, List.length_replicate, hlen]
      omega)
  rw [hw]
  have hassoc : bdaRegionBytes buf
      = List.replicate 512 0 ++ (buf ++ List.replicate 3072 0) := by
    rw [bdaRegionBytes, List.append_assoc]
  rw [hassoc, sliceBuf_append_sub _ _ _ _ (by
    simp only [List.length_replicate, le_refl])]
  simp only [List.length_replicate, Nat.sub_self]
  exact sliceBuf_append_here _ hlen

theorem readBytes_initializeBDA (pool dev mda blkdev it : Nat) (d : Disk) :
    readBytes (initializeBDA pool dev mda blkdev it d).2 512 512
        = sigblock_to_buf (StaticHeader.new pool dev mda blkdev it)
    ∧ readBytes (initializeBDA pool dev mda blkdev it d).2 4608 512
        = sigblock_to_buf (StaticHeader.new pool dev mda blkdev it) := by
  set SH := StaticHeader.new pool dev mda blkdev it with hSH
  set buf := sigblock_to_buf SH with hbuf
  set hb := MDAHeader.default.to_buf with hhb
  set per := mda / 4 * 512 with hper
  have hlen : buf.length = 512 := length_sigblock_to_buf SH
  have hK : (initializeBDA pool dev mda blkdev it d).2
      = writeBytes (writeBytes (writeBytes (writeBytes
          (bdaWrite d buf .Both)
          (mda_offset BDA_STATIC_HDR_SIZE 0 per) hb)
          (mda_offset BDA_STATIC_HDR_SIZE 1 per) hb)
          (mda_offset BDA_STATIC_HDR_SIZE 2 per) hb)
          (mda_offset BDA_STATIC_HDR_SIZE 3 per) hb := rfl
  have hoff : ∀ i : Nat, 5120 ≤ mda_offset BDA_STATIC_HDR_SIZE i per := by
    intro i
    unfold mda_offset BDA_STATIC_HDR_SIZE
    calc (5120 : Nat) ≤ 8192 := by omega
      _ ≤ 8192 + per * i := Nat.le_add_right _ _
  have hBoth : bdaWrite d buf .Both
      = writeBytes (writeBytes d 0 (bdaRegionBytes buf)) 4096
          (bdaRegionBytes buf) := rfl
  constructor
  · rw [hK,
      readBytes_writeBytes_disjoint _ _ _ _ _ (Or.inl (le_trans (by omega) (hoff 3))),
      readBytes_writeBytes_disjoint _ _ _ _ _ (Or.inl (le_trans (by omega) (hoff 2))),
      readBytes_writeBytes_disjoint _ _ _ _ _ (Or.inl (le_trans (by omega) (hoff 1))),
      readBytes_writeBytes_disjoint _ _ _ _ _ (Or.inl (le_trans (by omega) (hoff 0))),
      hBoth,
      readBytes_writeBytes_disjoint _ _ _ _ _ (Or.inl (by omega))]
    have h0 := readBytes_bdaRegion d 0 buf hlen
    rw [Nat.zero_add] at h0
    exact h0
  · rw [hK,
      readBytes_writeBytes_disjoint _ _ _ _ _ (Or.inl (hoff 3)),
      readBytes_writeBytes_disjoint _ _ _ _ _ (Or.inl (hoff 2)),
      readBytes_writeBytes_disjoint _ _ _ _ _ (Or.inl (hoff 1)),
      readBytes_writeBytes_disjoint _ _ _ _ _ (Or.inl (hoff 0)),
      hBoth]
    have h2 := readBytes_bdaRegion (writeBytes d 0 (bdaRegionBytes buf)) 4096
      buf hlen
    rw [show (4096 + 512 : Nat) = 4608 from rfl] at h2
    exact h2

theorem readBytes_wipe_zero (d : Disk) (a : Nat) (ha : a + 512 ≤ 8192) :
    readBytes (BDA.wipe d) a 512 = List.replicate 512 0 := by
  rw [BDA.wipe]
  have hw := readBytes_writeBytes_within d 0 a 512 (List.replicate 8192 0)
    (by
      simp only [List.length_replicate]
      omega)
  rw [Nat.zero_add] at hw
  rw [hw]
  apply List.ext_getElem
  · simp only [sliceBuf, List.length_take, List.length_drop,
      List.length_replicate]
    omega
  · intro i h1 h2
    simp only [sliceBuf, List.getElem_take, List.getElem_drop,
      List.getElem_replicate]

/-- C8: ownership lifecycle.  `device_identifiers` returns `Ok(None)` on
the all-zero stream, `Ok(Some((pool_uuid, dev_uuid)))` after
`initialize`, and `Ok(None)` again after `wipe`. -/
theorem C8_ownership (pool dev mda blkdev it : Nat)
    (hpool : pool < 340282366920938463463374607431768211456)
    (hdev : dev < 340282366920938463463374607431768211456)
    (hblk : blkdev < 18446744073709551616)
    (hit : it < 18446744073709551616)
    (hmda : mda < 18446744073709551616)
    (hm4 : mda % 4 = 0) (hmin : 2032 ≤ mda) :
    device_identifiers zeroDisk = .ok none
    ∧ device_identifiers (initializeBDA pool dev mda blkdev it zeroDisk).2
        = .ok (some (pool, dev))
    ∧ device_identifiers
        (BDA.wipe (initializeBDA pool dev mda blkdev it zeroDisk).2)
        = .ok none := by
  have hWF : (StaticHeader.new pool dev mda blkdev it).WF :=
    ⟨hblk, hpool, hdev, hmda, by norm_num [StaticHeader.new, MDA_RESERVED_SECTORS], hit⟩
  have hval : validate_mda_size (StaticHeader.new pool dev mda blkdev it).mda_size
      = .ok () := by
    unfold validate_mda_size MIN_MDA_SECTORS
    rw [if_neg (by simpa [StaticHeader.new] using by omega),
      if_neg (by simpa [StaticHeader.new] using by omega)]
  have hdec : sigblock_from_buf
      (sigblock_to_buf (StaticHeader.new pool dev mda blkdev it))
      = .ok (some (StaticHeader.new pool dev mda blkdev it)) :=
    sigblock_roundtrip hWF rfl hval
  refine ⟨?_, ?_, ?_⟩
  · rw [device_identifiers, setup_zeroDisk]
  · obtain ⟨hr1, hr2⟩ := readBytes_initializeBDA pool dev mda blkdev it zeroDisk
    have h1 : sigblock_from_buf
        (readBytes (initializeBDA pool dev mda blkdev it zeroDisk).2 512 512)
        = .ok (some (StaticHeader.new pool dev mda blkdev it)) := by
      rw [hr1]; exact hdec
    have h2 : sigblock_from_buf
        (readBytes (initializeBDA pool dev mda blkdev it zeroDisk).2 4608 512)
        = .ok (some (StaticHeader.new pool dev mda blkdev it)) := by
      rw [hr2]; exact hdec
    have hsetup : StaticHeader.setup (initializeBDA pool dev mda blkdev it zeroDisk).2
        = (.ok (some (StaticHeader.new pool dev mda blkdev it)),
           (initializeBDA pool dev mda blkdev it zeroDisk).2) := by
      simp only [StaticHeader.setup, bdaRead, h1, h2, if_true]
    rw [device_identifiers, hsetup]
    rfl
  · have hz1 : sigblock_from_buf
        (readBytes (BDA.wipe (initializeBDA pool dev mda blkdev it zeroDisk).2)
          512 512) = .ok none := by
      rw [readBytes_wipe_zero _ _ (by omega)]
      exact sigblock_from_buf_allzero
    have hz2 : sigblock_from_buf
        (readBytes (BDA.wipe (initializeBDA pool dev mda blkdev it zeroDisk).2)
          4608 512) = .ok none := by
      rw [readBytes_wipe_zero _ _ (by omega)]
      exact sigblock_from_buf_allzero
    have hsetup : StaticHeader.setup
        (BDA.wipe (initializeBDA pool dev mda blkdev it zeroDisk).2)
        = (.ok none, BDA.wipe (initializeBDA pool dev mda blkdev it zeroDisk).2) := by
      simp only [StaticHeader.setup, bdaRead, hz1, hz2]
    rw [device_identifiers, hsetup]

/-- C8, applied at concrete inputs. -/
theorem C8_ownership_witness :
    device_identifiers zeroDisk = .ok none
    ∧ device_identifiers (initializeBDA 7 9 2032 100 42 zeroDisk).2
        = .ok (some (7, 9)) :=
  ⟨(C8_ownership 7 9 2032 100 42 (by decide) (by decide) (by decide)
      (by decide) (by decide) (by decide) (by decide)).1,
   (C8_ownership 7 9 2032 100 42 (by decide) (by decide) (by decide)
      (by decide) (by decide) (by decide) (by decide)).2.1⟩

/-! ## CRC-32C changes under a single-byte change -/

theorem xor_div_two (x y : Nat) : (x ^^^ y) / 2 = x / 2 ^^^ y / 2 := by
  rw [← Nat.shiftRight_one, ← Nat.shiftRight_one, ← Nat.shiftRight_one]
  apply Nat.eq_of_testBit_eq
  intro i
  simp [Nat.testBit_shiftRight, Nat.testBit_xor]

theorem xor_mod_two (x y : Nat) : (x ^^^ y) % 2 = x % 2 ^^^ y % 2 := by
  rw [← Nat.and_one_is_mod, ← Nat.and_one_is_mod, ← Nat.and_one_is_mod]
  exact Nat.and_xor_distrib_right

theorem xor_cancel_mid (x y p : Nat) : (x ^^^ p) ^^^ (y ^^^ p) = x ^^^ y := by
  rw [Nat.xor_comm y p, ← Nat.xor_assoc, Nat.xor_assoc x p p, Nat.xor_self,
    Nat.xor_zero]

theorem xor_cancel_left (p x y : Nat) : (p ^^^ x) ^^^ (p ^^^ y) = x ^^^ y := by
  rw [Nat.xor_comm p x, Nat.xor_comm p y, xor_cancel_mid]

theorem xor_p_left (x y p : Nat) : (x ^^^ p) ^^^ y = (x ^^^ y) ^^^ p := by
  rw [Nat.xor_assoc, Nat.xor_comm p y, ← Nat.xor_assoc]

theorem xor_p_right (x y p : Nat) : x ^^^ (y ^^^ p) = (x ^^^ y) ^^^ p := by
  rw [← Nat.xor_assoc]

theorem crc32cStep_linear (a b : Nat) :
    crc32cStep (a ^^^ b) = crc32cStep a ^^^ crc32cStep b := by
  rcases Nat.mod_two_eq_zero_or_one a with hx | hx <;>
    rcases Nat.mod_two_eq_zero_or_one b with hy | hy
  · have hxy : (a ^^^ b) % 2 = 0 := by
      rw [xor_mod_two, hx, hy]
      decide
    simp only [crc32cStep, hx, hy, hxy, Nat.reduceEqDiff, reduceIte]
    exact xor_div_two a b
  · have hxy : (a ^^^ b) % 2 = 1 := by
      rw [xor_mod_two, hx, hy]
      decide
    simp only [crc32cStep, hx, hy, hxy, Nat.reduceEqDiff, reduceIte]
    rw [xor_div_two, xor_p_right]
  · have hxy : (a ^^^ b) % 2 = 1 := by
      rw [xor_mod_two, hx, hy]
      decide
    simp only [crc32cStep, hx, hy, hxy, Nat.reduceEqDiff, reduceIte]
    rw [xor_div_two, xor_p_left]
  · have hxy : (a ^^^ b) % 2 = 0 := by
      rw [xor_mod_two, hx, hy]
      decide
    simp only [crc32cStep, hx, hy, hxy, Nat.reduceEqDiff, reduceIte]
    rw [xor_div_two, xor_cancel_mid]

theorem crc32cStep_eq_zero {c : Nat} (hc : c < 4294967296)
    (h : crc32cStep c = 0) : c = 0 := by
  unfold crc32cStep at h
  rcases Nat.mod_two_eq_zero_or_one c with hx | hx
  · rw [if_neg (by omega)] at h
    omega
  · rw [if_pos hx] at h
    have := Nat.xor_eq_zero.mp h
    omega

theorem crc32cStep_iter_linear (k a b : Nat) :
    crc32cStep^[k] (a ^^^ b) = crc32cStep^[k] a ^^^ crc32cStep^[k] b := by
  induction k generalizing a b with
  | zero => rfl
  | succ k ih =>
    rw [Function.iterate_succ_apply, Function.iterate_succ_apply,
      Function.iterate_succ_apply, crc32cStep_linear, ih]

theorem crc32cStep_iter_lt (k : Nat) {c : Nat} (h : c < 4294967296) :
    crc32cStep^[k] c < 4294967296 := by
  induction k with
  | zero => exact h
  | succ k ih => rw [Function.iterate_succ_apply']; exact crc32cStep_lt ih

theorem crc32cStep_iter_ne_zero (k : Nat) {x : Nat} (hx : x < 4294967296)
    (hnz : x ≠ 0) : crc32cStep^[k] x ≠ 0 := by
  induction k with
  | zero => exact hnz
  | succ k ih =>
    rw [Function.iterate_succ_apply']
    intro hcon
    exact ih (crc32cStep_eq_zero (crc32cStep_iter_lt k hx) hcon)

theorem crc32cByte_eq_iter (c b : Nat) :
    crc32cByte c b = crc32cStep^[8] (c ^^^ b) := rfl

theorem crc32cByte_diff_acc (a b x : Nat) :
    crc32cByte a x ^^^ crc32cByte b x = crc32cStep^[8] (a ^^^ b) := by
  rw [crc32cByte_eq_iter, crc32cByte_eq_iter, ← crc32cStep_iter_linear,
    xor_cancel_mid]

theorem crc32cByte_diff_byte (c x y : Nat) :
    crc32cByte c x ^^^ crc32cByte c y = crc32cStep^[8] (x ^^^ y) := by
  rw [crc32cByte_eq_iter, crc32cByte_eq_iter, ← crc32cStep_iter_linear,
    xor_cancel_left]

theorem foldl_crc_diff (l : List Nat) :
    ∀ a b : Nat, (l.foldl crc32cByte a) ^^^ (l.foldl crc32cByte b)
      = crc32cStep^[8 * l.length] (a ^^^ b) := by
  induction l with
  | nil =>
    intro a b
    simp
  | cons x xs ih =>
    intro a b
    rw [List.foldl_cons, List.foldl_cons, ih, crc32cByte_diff_acc,
      ← Function.iterate_add_apply]
    have hlen : 8 * (x :: xs).length = 8 * xs.length + 8 := by
      rw [List.length_cons]
      ring
    rw [hlen]

theorem crc32c_flip_ne (l1 l2 : List Nat) {b b' : Nat}
    (hb : b < 4294967296) (hb' : b' < 4294967296) (hne : b ≠ b') :
    crc32c (l1 ++ b :: l2) ≠ crc32c (l1 ++ b' :: l2) := by
  unfold crc32c
  intro hcon
  have hfold : (l1 ++ b :: l2).foldl crc32cByte 0xFFFFFFFF
      = (l1 ++ b' :: l2).foldl crc32cByte 0xFFFFFFFF := by
    have hx := congrArg (· ^^^ 0xFFFFFFFF) hcon
    simpa [Nat.xor_assoc, Nat.xor_self, Nat.xor_zero] using hx
  rw [List.foldl_append, List.foldl_append, List.foldl_cons,
    List.foldl_cons] at hfold
  have hdiff := foldl_crc_diff l2
    (crc32cByte (l1.foldl crc32cByte 0xFFFFFFFF) b)
    (crc32cByte (l1.foldl crc32cByte 0xFFFFFFFF) b')
  rw [hfold, Nat.xor_self, crc32cByte_diff_byte] at hdiff
  have hbb : b ^^^ b' ≠ 0 := fun hz => hne (Nat.xor_eq_zero.mp hz)
  have hbblt : b ^^^ b' < 4294967296 := xor_lt_u32 hb hb'
  exact crc32cStep_iter_ne_zero (8 * l2.length)
    (crc32cStep_iter_lt 8 hbblt)
    (crc32cStep_iter_ne_zero 8 hbblt hbb) hdiff.symm

theorem list_decomp_at (l : List Nat) (p : Nat) (hp : p < l.length) :
    l = l.take p ++ l.getD p 0 :: l.drop (p + 1) := by
  rw [List.getD_eq_getElem l 0 hp, ← List.drop_eq_getElem_cons hp,
    List.take_append_drop]

theorem crc32c_set_ne (l : List Nat) (p v : Nat) (hp : p < l.length)
    (hl : ∀ x ∈ l, x < 4294967296) (hv : v < 4294967296)
    (hne : v ≠ l.getD p 0) :
    crc32c (l.set p v) ≠ crc32c l := by
  have hset : l.set p v = l.take p ++ v :: l.drop (p + 1) := by
    rw [List.set_eq_take_append_cons_drop, if_pos hp]
  have hbound : l.getD p 0 < 4294967296 := by
    rw [List.getD_eq_getElem l 0 hp]
    exact hl _ (List.getElem_mem hp)
  rw [hset]
  conv_rhs => rw [list_decomp_at l p hp]
  exact crc32c_flip_ne _ _ hv hbound hne

/-! ## Slices of a buffer with one byte changed -/

theorem sliceBuf_set_outside (l : List Nat) (p v o n : Nat)
    (h : p < o ∨ o + n ≤ p) :
    sliceBuf (l.set p v) o n = sliceBuf l o n := by
  apply List.ext_getElem
  · simp [sliceBuf, List.length_set]
  · intro i h1 h2
    have hi : i < n := by
      simp only [sliceBuf, List.length_take, List.length_drop,
        List.length_set] at h1
      omega
    simp only [sliceBuf, List.getElem_take, List.getElem_drop]
    exact List.getElem_set_ne (by omega) _

theorem sliceBuf_set_inside (l : List Nat) (p v o n : Nat)
    (ho : o ≤ p) (hn : p < o + n) (_hon : o + n ≤ l.length) :
    sliceBuf (l.set p v) o n = (sliceBuf l o n).set (p - o) v := by
  apply List.ext_getElem
  · simp [sliceBuf, List.length_set]
  · intro i h1 h2
    have hi : i < n := by
      simp only [sliceBuf, List.length_take, List.length_drop,
        List.length_set] at h1
      omega
    simp only [sliceBuf, List.getElem_take, List.getElem_drop]
    by_cases hip : p = o + i
    · subst hip
      rw [List.getElem_set, List.getElem_set, if_pos rfl, if_pos (by omega)]
    · rw [List.getElem_set_ne (by omega) _, List.getElem_set_ne (by omega) _]
      simp only [sliceBuf, List.getElem_take, List.getElem_drop]

theorem drop_set_lt (l : List Nat) (p v o : Nat) (h : p < o) :
    (l.set p v).drop o = l.drop o := by
  apply List.ext_getElem
  · simp [List.length_set]
  · intro i h1 h2
    simp only [List.getElem_drop]
    exact List.getElem_set_ne (by omega) _

theorem take_set_lt (l : List Nat) (p v o : Nat) (h : p < o)
    (hpl : p < l.length) :
    (l.set p v).take o = (l.take o).set p v := by
  apply List.ext_getElem
  · simp [List.length_set]
  · intro i h1 h2
    have hi : i < min o l.length := by
      simp only [List.length_take, List.length_set] at h1
      omega
    simp only [List.getElem_take]
    by_cases hip : i = p
    · subst hip
      rw [List.getElem_set_self (by rw [List.length_set]; omega),
        List.getElem_set_self (by simp [List.length_take]; omega)]
    · rw [List.getElem_set_ne (by omega) _, List.getElem_set_ne (by omega) _,
        List.getElem_take]

theorem take_set_ge (l : List Nat) (p v o : Nat) (h : o ≤ p) :
    (l.set p v).take o = l.take o := by
  apply List.ext_getElem
  · simp [List.length_set]
  · intro i h1 h2
    have hi : i < o := by
      simp only [List.length_take, List.length_set] at h1
      omega
    simp only [List.getElem_take]
    exact List.getElem_set_ne (by omega) _

theorem drop_set_ge (l : List Nat) (p v o : Nat) (h : o ≤ p)
    (hpl : p < l.length) :
    (l.set p v).drop o = (l.drop o).set (p - o) v := by
  apply List.ext_getElem
  · simp [List.length_set]
  · intro i h1 h2
    have hi : i < l.length - o := by
      simp only [List.length_drop, List.length_set] at h1
      omega
    simp only [List.getElem_drop]
    by_cases hip : p = o + i
    · subst hip
      rw [List.getElem_set, List.getElem_set, if_pos rfl, if_pos (by omega)]
    · rw [List.getElem_set_ne (by omega) _, List.getElem_set_ne (by omega) _,
        List.getElem_drop]

theorem sliceBuf_getD (l : List Nat) (o n i : Nat) (hi : i < n)
    (hol : o + n ≤ l.length) :
    (sliceBuf l o n).getD i 0 = l.getD (o + i) 0 := by
  rw [List.getD_eq_getElem _ _ (by
      simp only [sliceBuf, List.length_take, List.length_drop]
      omega),
    List.getD_eq_getElem _ _ (by omega)]
  simp only [sliceBuf, List.getElem_take, List.getElem_drop]

/-! ## Decoding a sigblock with one corrupted byte -/

theorem leToU32_set_ne (x : Nat) (hx : x < 4294967296) (k v : Nat)
    (hk : k < 4) (hv : v < 256) (hne : v ≠ (u32ToLe x).getD k 0) :
    leToU32 ((u32ToLe x).set k v) ≠ x := by
  interval_cases k <;>
    simp only [u32ToLe, List.set_cons_zero, List.set_cons_succ,
      List.getD_cons_zero, List.getD_cons_succ, leToU32] at hne ⊢ <;>
    omega

theorem sliceBuf_magic_set_ne (h : StaticHeader) (p v : Nat) (h4 : 4 ≤ p)
    (h20 : p < 20) (hne : v ≠ (sigblock_to_buf h).getD p 0) :
    sliceBuf ((sigblock_to_buf h).set p v) 4 16 ≠ STRAT_MAGIC := by
  have hlen := length_sigblock_to_buf h
  rw [sliceBuf_set_inside _ _ _ _ _ h4 (by omega) (by omega), sig_slice_magic]
  intro hcon
  have hplt : p - 4 < STRAT_MAGIC.length := by
    rw [length_STRAT_MAGIC]
    omega
  have hv' : v = STRAT_MAGIC.getD (p - 4) 0 := by
    calc v = (STRAT_MAGIC.set (p - 4) v).getD (p - 4) 0 := by
          rw [List.getD_eq_getElem _ _ (by rw [List.length_set]; exact hplt),
            List.getElem_set_self]
      _ = STRAT_MAGIC.getD (p - 4) 0 := by rw [hcon]
  have hrel : (sigblock_to_buf h).getD p 0 = STRAT_MAGIC.getD (p - 4) 0 := by
    have hs := congrArg (fun t => t.getD (p - 4) 0) (sig_slice_magic h)
    simp only at hs
    rw [← hs, sliceBuf_getD _ _ _ _ (by omega) (by omega),
      show 4 + (p - 4) = p by omega]
  exact hne (hv'.trans hrel.symm)

theorem sigblock_corrupt_magic (h : StaticHeader) (p v : Nat) (h4 : 4 ≤ p)
    (h20 : p < 20) (hne : v ≠ (sigblock_to_buf h).getD p 0) :
    sigblock_from_buf ((sigblock_to_buf h).set p v) = .ok none := by
  rw [sigblock_from_buf, if_pos (sliceBuf_magic_set_ne h p v h4 h20 hne)]

theorem sigblock_corrupt_crcfield (h : StaticHeader) (p v : Nat) (hp : p < 4)
    (hv : v < 256) (hne : v ≠ (sigblock_to_buf h).getD p 0) :
    sigblock_from_buf ((sigblock_to_buf h).set p v)
      = .error (.Invalid "header CRC invalid") := by
  have hlen := length_sigblock_to_buf h
  have hmagic : sliceBuf ((sigblock_to_buf h).set p v) 4 16 = STRAT_MAGIC := by
    rw [sliceBuf_set_outside _ _ _ _ _ (Or.inl hp), sig_slice_magic]
  have hdrop : ((sigblock_to_buf h).set p v).drop 4 = sigblockBody h := by
    rw [drop_set_lt _ _ _ _ hp, sig_drop4]
  have htake : ((sigblock_to_buf h).set p v).take 4
      = ((sigblock_to_buf h).take 4).set p v :=
    take_set_lt _ _ _ _ hp (by omega)
  have hfield : (u32ToLe (crc32c (sigblockBody h))).getD p 0
      = (sigblock_to_buf h).getD p 0 := by
    rw [sigblock_to_buf, List.getD_append _ _ _ _ (by
      rw [length_u32ToLe]
      omega)]
  have hstored : leToU32 (((sigblock_to_buf h).take 4).set p v)
      ≠ crc32c (sigblockBody h) := by
    rw [sig_take4]
    exact leToU32_set_ne _ (crc32c_sigblockBody_lt h) _ _ hp hv
      (by rw [hfield]; exact hne)
  rw [sigblock_from_buf, if_neg (by rw [hmagic]; exact fun hc => hc rfl),
    if_pos (by rw [hdrop, htake]; exact fun hc => hstored hc.symm)]

theorem sigblock_corrupt_body (h : StaticHeader) (p v : Nat) (hp : 20 ≤ p)
    (hplt : p < 512) (hv : v < 256)
    (hne : v ≠ (sigblock_to_buf h).getD p 0) :
    sigblock_from_buf ((sigblock_to_buf h).set p v)
      = .error (.Invalid "header CRC invalid") := by
  have hlen := length_sigblock_to_buf h
  have hmagic : sliceBuf ((sigblock_to_buf h).set p v) 4 16 = STRAT_MAGIC := by
    rw [sliceBuf_set_outside _ _ _ _ _ (Or.inr (by omega)), sig_slice_magic]
  have htake : ((sigblock_to_buf h).set p v).take 4 = (sigblock_to_buf h).take 4 :=
    take_set_ge _ _ _ _ (by omega)
  have hdrop : ((sigblock_to_buf h).set p v).drop 4
      = (sigblockBody h).set (p - 4) v := by
    rw [drop_set_ge _ _ _ _ (by omega) (by omega), sig_drop4]
  have hbody_getD : (sigblockBody h).getD (p - 4) 0
      = (sigblock_to_buf h).getD p 0 := by
    conv_rhs => rw [show p = 4 + (p - 4) by omega]
    rw [sigblock_to_buf, getD_append_skip _ (length_u32ToLe _)]
  have hcrcne : crc32c ((sigblockBody h).set (p - 4) v)
      ≠ crc32c (sigblockBody h) :=
    crc32c_set_ne _ _ _ (by rw [length_sigblockBody]; omega)
      (fun x hx => by have := sigblockBody_lt h x hx; omega) (by omega)
      (by rw [hbody_getD]; exact hne)
  rw [sigblock_from_buf, if_neg (by rw [hmagic]; exact fun hc => hc rfl),
    if_pos (by
      rw [hdrop, htake, sig_take4,
        leToU32_u32ToLe (crc32c_sigblockBody_lt h)]
      exact hcrcne)]

/-! ## Pointwise facts about the freshly initialized disk -/

theorem readBytes_getD (d : Disk) (off n i : Nat) (hi : i < n) :
    (readBytes d off n).getD i 0 = d (off + i) := by
  rw [List.getD_eq_getElem _ _ (by rw [length_readBytes]; exact hi)]
  simp only [readBytes, List.getElem_map, List.getElem_range]

theorem sigblock_to_buf_lt (h : StaticHeader) :
    ∀ x ∈ sigblock_to_buf h, x < 256 := by
  intro x hx
  rw [sigblock_to_buf] at hx
  rcases List.mem_append.mp hx with hx | hx
  · exact u32ToLe_lt _ _ hx
  · exact sigblockBody_lt h _ hx

theorem readBytes_write_single (d : Disk) (off n p v : Nat) (_hp : p < n) :
    readBytes (writeBytes d (off + p) [v]) off n = (readBytes d off n).set p v := by
  apply List.ext_getElem
  · simp [length_readBytes, List.length_set]
  · intro i h1 h2
    have hi : i < n := by
      rw [length_readBytes] at h1
      exact h1
    simp only [readBytes, List.getElem_map, List.getElem_range]
    rw [List.getElem_set]
    by_cases hip : p = i
    · subst hip
      rw [if_pos rfl, writeBytes_apply,
        if_pos (by simp only [List.length_cons, List.length_nil]; omega)]
      simp
    · rw [if_neg hip,
        writeBytes_apply_out _ _ _ _ (by
          simp only [List.length_cons, List.length_nil]
          omega)]
      simp only [readBytes, List.getElem_map, List.getElem_range]

theorem length_bdaRegionBytes (buf : List Nat) (hlen : buf.length = 512) :
    (bdaRegionBytes buf).length = 4096 := by
  rw [bdaRegionBytes]
  simp only [List.length_append, List.length_replicate, hlen]

theorem initializeBDA_lower (pool dev mda blkdev it : Nat) (d0 : Disk) :
    ∀ i, i < 4096 →
      (initializeBDA pool dev mda blkdev it d0).2 i
        = (bdaRegionBytes
            (sigblock_to_buf (StaticHeader.new pool dev mda blkdev it))).getD i 0 := by
  intro i hi
  set SH := StaticHeader.new pool dev mda blkdev it with hSH
  set buf := sigblock_to_buf SH with hbuf
  set hb := MDAHeader.default.to_buf with hhb
  set per := mda / 4 * 512 with hper
  have hK : (initializeBDA pool dev mda blkdev it d0).2
      = writeBytes (writeBytes (writeBytes (writeBytes
          (bdaWrite d0 buf .Both)
          (mda_offset BDA_STATIC_HDR_SIZE 0 per) hb)
          (mda_offset BDA_STATIC_HDR_SIZE 1 per) hb)
          (mda_offset BDA_STATIC_HDR_SIZE 2 per) hb)
          (mda_offset BDA_STATIC_HDR_SIZE 3 per) hb := rfl
  have hoff : ∀ j : Nat, i < mda_offset BDA_STATIC_HDR_SIZE j per := by
    intro j
    unfold mda_offset BDA_STATIC_HDR_SIZE
    calc i < 8192 := by omega
      _ ≤ 8192 + per * j := Nat.le_add_right _ _
  have hBoth : bdaWrite d0 buf .Both
      = writeBytes (writeBytes d0 0 (bdaRegionBytes buf)) 4096
          (bdaRegionBytes buf) := rfl
  have hRB : (bdaRegionBytes buf).length = 4096 :=
    length_bdaRegionBytes buf (length_sigblock_to_buf SH)
  rw [hK,
    writeBytes_apply_out _ _ _ _ (Or.inl (hoff 3)),
    writeBytes_apply_out _ _ _ _ (Or.inl (hoff 2)),
    writeBytes_apply_out _ _ _ _ (Or.inl (hoff 1)),
    writeBytes_apply_out _ _ _ _ (Or.inl (hoff 0)),
    hBoth,
    writeBytes_apply_out _ _ _ _ (Or.inl (by omega)),
    writeBytes_apply, if_pos (by rw [hRB]; omega), Nat.sub_zero]

theorem initializeBDA_upper (pool dev mda blkdev it : Nat) (d0 : Disk) :
    ∀ i, 4096 ≤ i → i < 8192 →
      (initializeBDA pool dev mda blkdev it d0).2 i
        = (bdaRegionBytes
            (sigblock_to_buf (StaticHeader.new pool dev mda blkdev it))).getD
            (i - 4096) 0 := by
  intro i hi4 hi8
  set SH := StaticHeader.new pool dev mda blkdev it with hSH
  set buf := sigblock_to_buf SH with hbuf
  set hb := MDAHeader.default.to_buf with hhb
  set per := mda / 4 * 512 with hper
  have hK : (initializeBDA pool dev mda blkdev it d0).2
      = writeBytes (writeBytes (writeBytes (writeBytes
          (bdaWrite d0 buf .Both)
          (mda_offset BDA_STATIC_HDR_SIZE 0 per) hb)
          (mda_offset BDA_STATIC_HDR_SIZE 1 per) hb)
          (mda_offset BDA_STATIC_HDR_SIZE 2 per) hb)
          (mda_offset BDA_STATIC_HDR_SIZE 3 per) hb := rfl
  have hoff : ∀ j : Nat, i < mda_offset BDA_STATIC_HDR_SIZE j per := by
    intro j
    unfold mda_offset BDA_STATIC_HDR_SIZE
    calc i < 8192 := hi8
      _ ≤ 8192 + per * j := Nat.le_add_right _ _
  have hBoth : bdaWrite d0 buf .Both
      = writeBytes (writeBytes d0 0 (bdaRegionBytes buf)) 4096
          (bdaRegionBytes buf) := rfl
  have hRB : (bdaRegionBytes buf).length = 4096 :=
    length_bdaRegionBytes buf (length_sigblock_to_buf SH)
  rw [hK,
    writeBytes_apply_out _ _ _ _ (Or.inl (hoff 3)),
    writeBytes_apply_out _ _ _ _ (Or.inl (hoff 2)),
    writeBytes_apply_out _ _ _ _ (Or.inl (hoff 1)),
    writeBytes_apply_out _ _ _ _ (Or.inl (hoff 0)),
    hBoth,
    writeBytes_apply, if_pos (by rw [hRB]; omega)]

theorem bdaWrite_first_restores (K : Disk) (buf : List Nat)
    (hlen : buf.length = 512) (dc : Disk)
    (hdc : ∀ i, 4096 ≤ i → dc i = K i)
    (hK : ∀ i, i < 4096 → K i = (bdaRegionBytes buf).getD i 0) :
    ∀ i, i < 8192 → bdaWrite dc buf .First i = K i := by
  intro i hi
  have hRB : (bdaRegionBytes buf).length = 4096 := length_bdaRegionBytes buf hlen
  show writeBytes dc 0 (bdaRegionBytes buf) i = K i
  by_cases hc : i < 4096
  · rw [writeBytes_apply, if_pos (by rw [hRB]; omega), Nat.sub_zero]
    exact (hK i hc).symm
  · rw [writeBytes_apply_out _ _ _ _ (Or.inr (by rw [hRB]; omega))]
    exact hdc i (by omega)

theorem bdaWrite_second_restores (K : Disk) (buf : List Nat)
    (hlen : buf.length = 512) (dc : Disk)
    (hdc : ∀ i, i < 4096 → dc i = K i)
    (hK : ∀ i, 4096 ≤ i → i < 8192 →
      K i = (bdaRegionBytes buf).getD (i - 4096) 0) :
    ∀ i, i < 8192 → bdaWrite dc buf .Second i = K i := by
  intro i hi
  have hRB : (bdaRegionBytes buf).length = 4096 := length_bdaRegionBytes buf hlen
  show writeBytes dc 4096 (bdaRegionBytes buf) i = K i
  by_cases hc : 4096 ≤ i
  · rw [writeBytes_apply, if_pos (by rw [hRB]; omega)]
    exact (hK i hc hi).symm
  · rw [writeBytes_apply_out _ _ _ _ (Or.inl (by omega))]
    exact hdc i (by omega)

/-- C6: on a freshly initialized device, inverting any single byte inside
either sigblock sector (offset `512 + p` or `4608 + p`, `p < 512`) makes
`setup` return the original header and repair the damaged copy: the first
8192 bytes of the resulting stream equal their pre-corruption contents. -/
theorem C6_single_byte_repair (pool dev mda blkdev it : Nat) (d0 : Disk)
    (p : Nat)
    (hpool : pool < 340282366920938463463374607431768211456)
    (hdev : dev < 340282366920938463463374607431768211456)
    (hblk : blkdev < 18446744073709551616)
    (hit : it < 18446744073709551616)
    (hmda : mda < 18446744073709551616)
    (hm4 : mda % 4 = 0) (hmin : 2032 ≤ mda) (hp : p < 512) :
    ((StaticHeader.setup
        (corrupt_byte (initializeBDA pool dev mda blkdev it d0).2 (512 + p))).1
        = .ok (some (StaticHeader.new pool dev mda blkdev it))
      ∧ ∀ i, i < 8192 →
          (StaticHeader.setup
            (corrupt_byte (initializeBDA pool dev mda blkdev it d0).2
              (512 + p))).2 i
          = (initializeBDA pool dev mda blkdev it d0).2 i)
    ∧ ((StaticHeader.setup
        (corrupt_byte (initializeBDA pool dev mda blkdev it d0).2 (4608 + p))).1
        = .ok (some (StaticHeader.new pool dev mda blkdev it))
      ∧ ∀ i, i < 8192 →
          (StaticHeader.setup
            (corrupt_byte (initializeBDA pool dev mda blkdev it d0).2
              (4608 + p))).2 i
          = (initializeBDA pool dev mda blkdev it d0).2 i) := by
  set SH := StaticHeader.new pool dev mda blkdev it with hSH
  set K := (initializeBDA pool dev mda blkdev it d0).2 with hK
  set buf := sigblock_to_buf SH with hbuf
  obtain ⟨hr1, hr2⟩ := readBytes_initializeBDA pool dev mda blkdev it d0
  have hWF : SH.WF :=
    ⟨hblk, hpool, hdev, hmda,
      by norm_num [hSH, StaticHeader.new, MDA_RESERVED_SECTORS], hit⟩
  have hval : validate_mda_size SH.mda_size = .ok () := by
    unfold validate_mda_size MIN_MDA_SECTORS
    rw [if_neg (by simpa [hSH, StaticHeader.new] using by omega),
      if_neg (by simpa [hSH, StaticHeader.new] using by omega)]
  have hdec : sigblock_from_buf buf = .ok (some SH) :=
    sigblock_roundtrip hWF rfl hval
  have hlenbuf : buf.length = 512 := length_sigblock_to_buf SH
  have hb256 : buf.getD p 0 < 256 := by
    rw [List.getD_eq_getElem buf 0 (by omega)]
    exact sigblock_to_buf_lt SH _ (List.getElem_mem _)
  -- decoding a copy of `buf` with byte `p` inverted never validates,
  -- and when it has magic damage it reads as not-ours
  have hcorrupt : ∀ v : Nat, v < 256 → v ≠ buf.getD p 0 →
      sigblock_from_buf (buf.set p v) = .ok none
      ∨ sigblock_from_buf (buf.set p v) = .error (.Invalid "header CRC invalid") := by
    intro v hv hne
    rcases Nat.lt_or_ge p 4 with hp4 | hp4
    · exact Or.inr (sigblock_corrupt_crcfield SH p v hp4 hv hne)
    · rcases Nat.lt_or_ge p 20 with hp20 | hp20
      · exact Or.inl (sigblock_corrupt_magic SH p v hp4 hp20 hne)
      · exact Or.inr (sigblock_corrupt_body SH p v hp20 hp hv hne)
  constructor
  · -- copy 1 corrupted
    have hbyte : K (512 + p) = buf.getD p 0 := by
      have hg := readBytes_getD K 512 512 p hp
      rw [hr1] at hg
      exact hg.symm
    have hvlt : 255 - K (512 + p) < 256 := by omega
    have hvne : 255 - K (512 + p) ≠ buf.getD p 0 := by
      rw [hbyte]
      omega
    have hread1 : readBytes (corrupt_byte K (512 + p)) 512 512
        = buf.set p (255 - K (512 + p)) := by
      rw [corrupt_byte, readBytes_write_single _ _ _ _ _ hp, hr1]
    have hread2 : readBytes (corrupt_byte K (512 + p)) 4608 512 = buf := by
      rw [corrupt_byte,
        readBytes_writeBytes_disjoint _ _ _ _ _ (Or.inr (by
          simp only [List.length_cons, List.length_nil]
          omega)), hr2]
    have hdcK : ∀ i, 4096 ≤ i → corrupt_byte K (512 + p) i = K i := by
      intro i hi
      rw [corrupt_byte]
      exact writeBytes_apply_out _ _ _ _ (Or.inr (by
        simp only [List.length_cons, List.length_nil]
        omega))
    have hsetup : StaticHeader.setup (corrupt_byte K (512 + p))
        = (.ok (some SH), bdaWrite (corrupt_byte K (512 + p)) buf .First) := by
      rcases hcorrupt _ hvlt hvne with hd1 | hd1 <;>
        simp only [StaticHeader.setup, bdaRead, hread1, hread2, hd1, hdec]
    have hrest := bdaWrite_first_restores K buf hlenbuf _ hdcK
      (initializeBDA_lower pool dev mda blkdev it d0)
    exact ⟨by rw [hsetup], fun i hi => by rw [hsetup]; exact hrest i hi⟩
  · -- copy 2 corrupted
    have hbyte : K (4608 + p) = buf.getD p 0 := by
      have hg := readBytes_getD K 4608 512 p hp
      rw [hr2] at hg
      exact hg.symm
    have hvlt : 255 - K (4608 + p) < 256 := by omega
    have hvne : 255 - K (4608 + p) ≠ buf.getD p 0 := by
      rw [hbyte]
      omega
    have hread2 : readBytes (corrupt_byte K (4608 + p)) 4608 512
        = buf.set p (255 - K (4608 + p)) := by
      rw [corrupt_byte, readBytes_write_single _ _ _ _ _ hp, hr2]
    have hread1 : readBytes (corrupt_byte K (4608 + p)) 512 512 = buf := by
      rw [corrupt_byte,
        readBytes_writeBytes_disjoint _ _ _ _ _ (Or.inl (by omega)), hr1]
    have hdcK : ∀ i, i < 4096 → corrupt_byte K (4608 + p) i = K i := by
      intro i hi
      rw [corrupt_byte]
      exact writeBytes_apply_out _ _ _ _ (Or.inl (by omega))
    have hsetup : StaticHeader.setup (corrupt_byte K (4608 + p))
        = (.ok (some SH), bdaWrite (corrupt_byte K (4608 + p)) buf .Second) := by
      rcases hcorrupt _ hvlt hvne with hd2 | hd2 <;>
        simp only [StaticHeader.setup, bdaRead, hread1, hread2, hd2, hdec]
    have hrest := bdaWrite_second_restores K buf hlenbuf _ hdcK
      (initializeBDA_upper pool dev mda blkdev it d0)
    exact ⟨by rw [hsetup], fun i hi => by rw [hsetup]; exact hrest i hi⟩

/-- C6, applied at concrete inputs. -/
theorem C6_single_byte_repair_witness :
    (StaticHeader.setup
      (corrupt_byte (initializeBDA 7 9 2032 100 42 zeroDisk).2 (512 + 0))).1
      = .ok (some (StaticHeader.new 7 9 2032 100 42)) :=
  ((C6_single_byte_repair 7 9 2032 100 42 zeroDisk 0 (by decide) (by decide)
    (by decide) (by decide) (by decide) (by decide) (by decide)
    (by decide)).1).1

theorem decode_corruptSig :
    sigblock_from_buf corruptSig = .error (.Invalid "header CRC invalid") := by
  have hb : (sigblock_to_buf shNewer).getD 0 0 < 256 := by
    rw [List.getD_eq_getElem _ 0 (by rw [length_sigblock_to_buf]; omega)]
    exact sigblock_to_buf_lt shNewer _ (List.getElem_mem _)
  rw [corruptSig]
  exact sigblock_corrupt_crcfield shNewer 0 _ (by norm_num) (by omega) (by omega)

theorem length_corruptSig : corruptSig.length = 512 := by
  rw [corruptSig, List.length_set, length_sigblock_to_buf]

/-- C7, applied at concrete inputs: the all-zero disk (no magic on either
copy) and a disk whose two copies both fail CRC validation. -/
theorem C7_no_valid_sigblock_witness :
    StaticHeader.setup zeroDisk = (.ok none, zeroDisk)
    ∧ StaticHeader.setup dBothCorrupt
        = (.error (.Invalid
            "Appeared to be a Stratis device, but no valid sigblock found"),
           dBothCorrupt) := by
  have hz : sigblock_from_buf (readBytes zeroDisk 512 512) = .ok none := by
    rw [readBytes_zeroDisk]
    exact sigblock_from_buf_allzero
  have hz2 : sigblock_from_buf (readBytes zeroDisk 4608 512) = .ok none := by
    rw [readBytes_zeroDisk]
    exact sigblock_from_buf_allzero
  have h1 : sigblock_from_buf (readBytes dBothCorrupt 512 512)
      = .error (.Invalid "header CRC invalid") := by
    rw [dBothCorrupt, readBytes_twoWrites_first _ _ _ length_corruptSig]
    exact decode_corruptSig
  have h2 : sigblock_from_buf (readBytes dBothCorrupt 4608 512)
      = .error (.Invalid "header CRC invalid") := by
    rw [dBothCorrupt, readBytes_twoWrites_second _ _ _ length_corruptSig]
    exact decode_corruptSig
  exact ⟨(C7_no_valid_sigblock zeroDisk (.Invalid "") (.Invalid "")
      (.Invalid "")).1 hz hz2,
    (C7_no_valid_sigblock dBothCorrupt (.Invalid "")
      (.Invalid "header CRC invalid")
      (.Invalid "header CRC invalid")).2.2.2 h1 h2⟩
